import Mathlib

/-!
Byte codecs and the TCP connection object of ustack

A shallow embedding of the Go packages `internal/utils` (checksum), `pkg/eth`,
`pkg/ip`, `pkg/tcp`, `pkg/udp` and `pkg/icmp`.

Conventions of the embedding

* A Go `[]byte` or `[n]byte` is a `List Nat`; the Go type invariants (every element
  below 256, an array having its fixed length, a `uint16` below 65536, ...) are
  stated by the `Valid` predicates and appear as hypotheses.
* Unsigned machine arithmetic is written on `Nat` with an explicit `% 2 ^ w`.
* A Go method with a pointer receiver that returns `error` becomes a function
  into `Result`, which carries the receiver as it stands when the method
  returns; a run-time panic (slice or index out of range) is the third outcome,
  and a call that waits for ever for a lock is the fourth.
* Slicing and indexing are partial (`Option`), as in Go.
-/

namespace Ustack

/-! Outcomes -/

/-- Error values built with `fmt.Errorf` in the sources, one constructor per message;
the argument is the number printed in the message. -/
inductive Err where
  | payloadTooLarge (n : Nat)
  | frameTooShort (n : Nat)
  | ipHeaderTooShort (n : Nat)
  | tcpHeaderTooLarge (n : Nat)
  | tcpHeaderTooShort (n : Nat)
  | udpPacketTooLarge (n : Nat)
  | udpPacketTooShort (n : Nat)
  | icmpPacketTooShort (n : Nat)
  | notClosed
  | notEstablished
  deriving DecidableEq, Repr

/-- Outcome of a method call: `ok v st` is a return with a nil error, value `v` and
receiver `st`; `error e st` is a return with error `e` (and no value), the receiver
being `st`; `panic` is a Go run-time panic; `blocked st` is a call that never
returns, because it waits for a mutex that is never released, the receiver being
`st` from then on. -/
inductive Result (σ α : Type) where
  | ok (val : α) (st : σ)
  | error (e : Err) (st : σ)
  | panic
  | blocked (st : σ)
  deriving DecidableEq, Repr

/-- The call returned a non-nil error. -/
def Result.failed {σ α : Type} : Result σ α → Bool
  | .error _ _ => true
  | _ => false

/-- The call returned a nil error (and did not panic). -/
def Result.isOk {σ α : Type} : Result σ α → Bool
  | .ok _ _ => true
  | _ => false

/-- Lift the body of a method: a body that ran to its end returns `v` with a nil
error, a body that hit an out-of-range access panics. -/
def Result.ofBody {σ α : Type} : Option (α × σ) → Result σ α
  | some (v, st) => .ok v st
  | none => .panic

/-! Byte buffers -/

abbrev Bytes := List Nat

/-- All elements are bytes. -/
def isBytes (l : Bytes) : Prop := ∀ b ∈ l, b < 256

instance (l : Bytes) : Decidable (isBytes l) := by
  unfold isBytes; exact inferInstance

/-- The Go builtin `make([]byte, n)`. -/
def make (n : Nat) : Bytes := List.replicate n 0

/-- The Go slice expression `data[lo:hi]`; out of range is a panic. -/
def slice (data : Bytes) (lo hi : Nat) : Option Bytes :=
  if lo ≤ hi ∧ hi ≤ data.length then some ((data.drop lo).take (hi - lo)) else none

/-- The Go slice expression `data[lo:]`. -/
def sliceFrom (data : Bytes) (lo : Nat) : Option Bytes :=
  slice data lo data.length

/-- The Go index expression `data[i]`. -/
def index (data : Bytes) (i : Nat) : Option Nat := data[i]?

/-- The Go builtin `copy(dst, src)` seen from `dst`: the first
`min (len dst) (len src)` elements of `dst` are replaced. -/
def copyBytes (dst src : Bytes) : Bytes :=
  src.take dst.length ++ dst.drop src.length

/-- The statement `copy(data[lo:hi], src)`: the window is written through to `data`. -/
def copyInto (data : Bytes) (lo hi : Nat) (src : Bytes) : Option Bytes := do
  let window ← slice data lo hi
  pure (data.take lo ++ copyBytes window src ++ data.drop hi)

/-- The statement `copy(data[lo:], src)`. -/
def copyFrom (data : Bytes) (lo : Nat) (src : Bytes) : Option Bytes :=
  copyInto data lo data.length src

/-- The assignment `data[i] = v` of a `uint8` value. -/
def setIndex (data : Bytes) (i : Nat) (v : Nat) : Option Bytes :=
  if i < data.length then some (data.set i v) else none

/-- Bytes stored by `binary.BigEndian.PutUint16`: `byte(v >> 8)`, `byte(v)`. -/
def be16 (v : Nat) : Bytes := [(v >>> 8) % 256, v % 256]

/-- Bytes stored by `binary.BigEndian.PutUint32`. -/
def be32 (v : Nat) : Bytes :=
  [(v >>> 24) % 256, (v >>> 16) % 256, (v >>> 8) % 256, v % 256]

/-- The call `binary.BigEndian.PutUint16(data[lo:hi], v)`; the library panics when the
window has fewer than two bytes. -/
def putUint16 (data : Bytes) (lo hi : Nat) (v : Nat) : Option Bytes := do
  let window ← slice data lo hi
  if window.length < 2 then none
  else pure (data.take lo ++ copyBytes window (be16 v) ++ data.drop hi)

/-- The call `binary.BigEndian.PutUint32(data[lo:hi], v)`. -/
def putUint32 (data : Bytes) (lo hi : Nat) (v : Nat) : Option Bytes := do
  let window ← slice data lo hi
  if window.length < 4 then none
  else pure (data.take lo ++ copyBytes window (be32 v) ++ data.drop hi)

/-- The 16-bit word `uint16(b1) | uint16(b0)<<8` read by `binary.BigEndian.Uint16`. -/
def word16 (b0 b1 : Nat) : Nat := (b1 ||| (b0 <<< 8)) % 65536

/-- The function `binary.BigEndian.Uint16`; the library panics on fewer than two bytes. -/
def beUint16 : Bytes → Option Nat
  | b0 :: b1 :: _ => some (word16 b0 b1)
  | _ => none

/-- The function `binary.BigEndian.Uint32`. -/
def beUint32 : Bytes → Option Nat
  | b0 :: b1 :: b2 :: b3 :: _ =>
      some ((b3 ||| (b2 <<< 8) ||| (b1 <<< 16) ||| (b0 <<< 24)) % 4294967296)
  | _ => none

/-- The call `binary.BigEndian.Uint16(data[lo:hi])`. -/
def getUint16 (data : Bytes) (lo hi : Nat) : Option Nat := do
  let window ← slice data lo hi
  beUint16 window

/-- The call `binary.BigEndian.Uint32(data[lo:hi])`. -/
def getUint32 (data : Bytes) (lo hi : Nat) : Option Nat := do
  let window ← slice data lo hi
  beUint32 window

/-! Checksum, `internal/utils/checksum.go` -/

namespace utils

/-- The first loop of `CalculateChecksum`, `for i := 0; i < length-1; i += 2`: while at
least two bytes remain, the next two are read as a big-endian word and added to the
`uint32` accumulator. The list is the part of `data` from index `i` on. -/
def sumWords : Bytes → Nat → Nat
  | b0 :: b1 :: rest, sum => sumWords rest ((sum + word16 b0 b1) % 4294967296)
  | _, sum => sum

/-- The carry loop of `CalculateChecksum`,
`for sum > 0xffff { sum = (sum & 0xffff) + (sum >> 16) }`. The first argument bounds
the number of rounds; `foldCarry_spec` shows that `sum` rounds always reach the exit
test. -/
def foldCarry : Nat → Nat → Nat
  | 0, sum => sum
  | fuel + 1, sum =>
      if sum > 0xffff then foldCarry fuel (((sum &&& 0xffff) + (sum >>> 16)) % 4294967296)
      else sum

/-- The function `utils.CalculateChecksum`. The complement `^sum` of a `uint32` is
`0xffffffff - sum`, and `uint16(_)` keeps the low 16 bits. -/
def CalculateChecksum (data : Bytes) : Nat :=
  let length := data.length
  let sum := sumWords data 0
  let sum :=
    if length % 2 = 1 then
      (sum + ((data.getD (length - 1) 0) <<< 8) % 4294967296) % 4294967296
    else sum
  let sum := foldCarry sum sum
  (4294967295 - sum) % 65536

/-- The function `utils.CalculateTCPChecksum`. -/
def CalculateTCPChecksum (tcpHeader payload srcIP dstIP : Bytes) : Option Nat := do
  let pseudoHeader := make 12
  let pseudoHeader ← copyInto pseudoHeader 0 4 srcIP
  let pseudoHeader ← copyInto pseudoHeader 4 8 dstIP
  let pseudoHeader ← setIndex pseudoHeader 8 0
  let pseudoHeader ← setIndex pseudoHeader 9 6
  let pseudoHeader ← putUint16 pseudoHeader 10 12 ((tcpHeader.length + payload.length) % 65536)
  let data : Bytes := []
  let data := data ++ pseudoHeader
  let data := data ++ tcpHeader
  let data := data ++ payload
  pure (CalculateChecksum data)

end utils

/-! The checksum as the specification words it -/

/-- Specification: the sum of the input read as big-endian 16-bit words, a trailing
odd byte being the high byte of a last word whose low byte is zero. -/
def specWordSum : Bytes → Nat
  | b0 :: b1 :: rest => (256 * b0 + b1) + specWordSum rest
  | [b0] => 256 * b0
  | [] => 0

/-- Specification: add the carry above bit 15 back into the low 16 bits, again and
again until the value fits in 16 bits (the first argument bounds the rounds). -/
def specFoldAux : Nat → Nat → Nat
  | 0, x => x
  | fuel + 1, x => if x < 65536 then x else specFoldAux fuel (x % 65536 + x / 65536)

/-- Specification: the end-around-carry fold of a natural number. -/
def specFold (x : Nat) : Nat := specFoldAux x x

/-- Specification: the Internet checksum, the 16-bit complement of the folded sum. -/
def specChecksum (data : Bytes) : Nat := 65535 - specFold (specWordSum data)

/-- The aligned 16-bit words of a byte sequence, as pairs (high byte, low byte); a
trailing odd byte belongs to no word. -/
def toWords : Bytes → List (Nat × Nat)
  | b0 :: b1 :: rest => (b0, b1) :: toWords rest
  | _ => []

/-- The byte image `data` with the two bytes at `off` replaced by zero. -/
def zeroField (data : Bytes) (off : Nat) : Bytes :=
  data.take off ++ [0, 0] ++ data.drop (off + 2)

/-! Ethernet, `pkg/eth/frame.go` -/

namespace eth

def EthernetHeaderLength : Nat := 14
def EtherTypeIPv4 : Nat := 0x0800
def EtherTypeARP : Nat := 0x0806

/-- The struct `eth.Frame`. -/
structure Frame where
  DestinationMAC : Bytes
  SourceMAC : Bytes
  EtherType : Nat
  Payload : Bytes
  deriving DecidableEq, Repr

/-- Go type invariant of `eth.Frame`: `[6]byte`, `[6]byte`, `uint16`, `[]byte`. -/
def Frame.Valid (f : Frame) : Prop :=
  f.DestinationMAC.length = 6 ∧ isBytes f.DestinationMAC ∧
  f.SourceMAC.length = 6 ∧ isBytes f.SourceMAC ∧
  f.EtherType < 65536 ∧ isBytes f.Payload

instance (f : Frame) : Decidable f.Valid := by
  unfold Frame.Valid; exact inferInstance

/-- The constructor `eth.NewFrame`. -/
def NewFrame (srcMAC dstMAC : Bytes) (etherType : Nat) (payload : Bytes) : Frame :=
  { SourceMAC := srcMAC, DestinationMAC := dstMAC, EtherType := etherType, Payload := payload }

/-- The method `(*Frame).Marshal`. -/
def Frame.Marshal (f : Frame) : Result Frame Bytes :=
  if f.Payload.length > 1500 then
    .error (.payloadTooLarge f.Payload.length) f
  else
    Result.ofBody do
      let data := make (EthernetHeaderLength + f.Payload.length)
      let data ← copyInto data 0 6 f.DestinationMAC
      let data ← copyInto data 6 12 f.SourceMAC
      let data ← putUint16 data 12 14 f.EtherType
      let data ← copyFrom data 14 f.Payload
      pure (data, f)

/-- The method `(*Frame).Unmarshal`. -/
def Frame.Unmarshal (f : Frame) (data : Bytes) : Result Frame Unit :=
  if data.length < EthernetHeaderLength then
    .error (.frameTooShort data.length) f
  else
    Result.ofBody do
      let s ← slice data 0 6
      let f := { f with DestinationMAC := copyBytes f.DestinationMAC s }
      let s ← slice data 6 12
      let f := { f with SourceMAC := copyBytes f.SourceMAC s }
      let v ← getUint16 data 12 14
      let f := { f with EtherType := v }
      let f := { f with Payload := make (data.length - EthernetHeaderLength) }
      let s ← sliceFrom data 14
      let f := { f with Payload := copyBytes f.Payload s }
      pure ((), f)

/-- The method `(*Frame).IsBroadcast`. -/
def Frame.IsBroadcast (f : Frame) : Bool :=
  f.DestinationMAC == [0xff, 0xff, 0xff, 0xff, 0xff, 0xff]

/-- The method `(*Frame).IsMulticast`; index 0 of a `[6]byte` always exists. -/
def Frame.IsMulticast (f : Frame) : Bool :=
  (f.DestinationMAC.getD 0 0 &&& 0x01) != 0

end eth

/-! IPv4, `pkg/ip/header.go` -/

namespace ip

def IPHeaderLength : Nat := 20
def ProtocolICMP : Nat := 1
def ProtocolTCP : Nat := 6
def ProtocolUDP : Nat := 17
def FlagDF : Nat := 0x4000
def FlagMF : Nat := 0x2000

/-- The struct `ip.Header`. -/
structure Header where
  Version : Nat
  IHL : Nat
  TOS : Nat
  TotalLength : Nat
  Identification : Nat
  Flags : Nat
  FragmentOffset : Nat
  TTL : Nat
  Protocol : Nat
  Checksum : Nat
  SourceIP : Bytes
  DestinationIP : Bytes
  deriving DecidableEq, Repr

/-- Go type invariant of `ip.Header`: the widths of the fields. -/
def Header.Valid (h : Header) : Prop :=
  h.Version < 256 ∧ h.IHL < 256 ∧ h.TOS < 256 ∧ h.TotalLength < 65536 ∧
  h.Identification < 65536 ∧ h.Flags < 65536 ∧ h.FragmentOffset < 65536 ∧
  h.TTL < 256 ∧ h.Protocol < 256 ∧ h.Checksum < 65536 ∧
  h.SourceIP.length = 4 ∧ isBytes h.SourceIP ∧
  h.DestinationIP.length = 4 ∧ isBytes h.DestinationIP

instance (h : Header) : Decidable h.Valid := by
  unfold Header.Valid; exact inferInstance

/-- The method `(*Header).Marshal`. -/
def Header.Marshal (h : Header) : Result Header Bytes :=
  Result.ofBody do
    let data := make IPHeaderLength
    let data ← setIndex data 0 (((h.Version <<< 4) % 256) ||| h.IHL)
    let data ← setIndex data 1 h.TOS
    let data ← putUint16 data 2 4 h.TotalLength
    let data ← putUint16 data 4 6 h.Identification
    let flagsAndOffset := (h.Flags &&& 0xE000) ||| (h.FragmentOffset &&& 0x1FFF)
    let data ← putUint16 data 6 8 flagsAndOffset
    let data ← setIndex data 8 h.TTL
    let data ← setIndex data 9 h.Protocol
    let data ← putUint16 data 10 12 0
    let data ← copyInto data 12 16 h.SourceIP
    let data ← copyInto data 16 20 h.DestinationIP
    let h := { h with Checksum := utils.CalculateChecksum data }
    let data ← putUint16 data 10 12 h.Checksum
    pure (data, h)

/-- The method `(*Header).Unmarshal`. -/
def Header.Unmarshal (h : Header) (data : Bytes) : Result Header Unit :=
  if data.length < IPHeaderLength then
    .error (.ipHeaderTooShort data.length) h
  else
    Result.ofBody do
      let b ← index data 0
      let h := { h with Version := b >>> 4 }
      let b ← index data 0
      let h := { h with IHL := b &&& 0x0F }
      let b ← index data 1
      let h := { h with TOS := b }
      let v ← getUint16 data 2 4
      let h := { h with TotalLength := v }
      let v ← getUint16 data 4 6
      let h := { h with Identification := v }
      let flagsAndOffset ← getUint16 data 6 8
      let h := { h with Flags := flagsAndOffset &&& 0xE000 }
      let h := { h with FragmentOffset := flagsAndOffset &&& 0x1FFF }
      let b ← index data 8
      let h := { h with TTL := b }
      let b ← index data 9
      let h := { h with Protocol := b }
      let v ← getUint16 data 10 12
      let h := { h with Checksum := v }
      let s ← slice data 12 16
      let h := { h with SourceIP := copyBytes h.SourceIP s }
      let s ← slice data 16 20
      let h := { h with DestinationIP := copyBytes h.DestinationIP s }
      pure ((), h)

/-- The method `(*Header).IsFragment`. -/
def Header.IsFragment (h : Header) : Bool :=
  (h.Flags &&& FlagMF) != 0 || h.FragmentOffset != 0

/-- The method `(*Header).IsFirstFragment`. -/
def Header.IsFirstFragment (h : Header) : Bool :=
  h.FragmentOffset == 0

/-- The constructor `ip.NewHeader`. -/
def NewHeader (srcIP dstIP : Bytes) (protocol totalLength : Nat) : Header :=
  { Version := 4, IHL := 5, TOS := 0, TotalLength := totalLength, Identification := 0,
    Flags := 0, FragmentOffset := 0, TTL := 64, Protocol := protocol, Checksum := 0,
    SourceIP := srcIP, DestinationIP := dstIP }

end ip

/-! TCP header, `pkg/tcp/header.go` -/

namespace tcp

def TCPHeaderLength : Nat := 20
def FlagFIN : Nat := 0x01
def FlagSYN : Nat := 0x02
def FlagRST : Nat := 0x04
def FlagPSH : Nat := 0x08
def FlagACK : Nat := 0x10
def FlagURG : Nat := 0x20

/-- The struct `tcp.Header`. -/
structure Header where
  SourcePort : Nat
  DestinationPort : Nat
  SequenceNumber : Nat
  Acknowledgment : Nat
  DataOffset : Nat
  Flags : Nat
  WindowSize : Nat
  Checksum : Nat
  UrgentPointer : Nat
  Options : Bytes
  deriving DecidableEq, Repr

/-- Go type invariant of `tcp.Header`: the widths of the fields. -/
def Header.Valid (h : Header) : Prop :=
  h.SourcePort < 65536 ∧ h.DestinationPort < 65536 ∧
  h.SequenceNumber < 4294967296 ∧ h.Acknowledgment < 4294967296 ∧
  h.DataOffset < 256 ∧ h.Flags < 256 ∧ h.WindowSize < 65536 ∧
  h.Checksum < 65536 ∧ h.UrgentPointer < 65536 ∧ isBytes h.Options

instance (h : Header) : Decidable h.Valid := by
  unfold Header.Valid; exact inferInstance

/-- The zero value `Header{}`, a fresh header. -/
def Header.zero : Header :=
  { SourcePort := 0, DestinationPort := 0, SequenceNumber := 0, Acknowledgment := 0,
    DataOffset := 0, Flags := 0, WindowSize := 0, Checksum := 0, UrgentPointer := 0,
    Options := [] }

/-- The method `(*Header).Marshal`. -/
def Header.Marshal (h : Header) : Result Header Bytes :=
  let headerLength := TCPHeaderLength + h.Options.length
  if headerLength > 60 then
    .error (.tcpHeaderTooLarge headerLength) h
  else
    Result.ofBody do
      let data := make headerLength
      let data ← putUint16 data 0 2 h.SourcePort
      let data ← putUint16 data 2 4 h.DestinationPort
      let data ← putUint32 data 4 8 h.SequenceNumber
      let data ← putUint32 data 8 12 h.Acknowledgment
      let dataOffset := (headerLength / 4) % 256
      let data ← setIndex data 12 (((dataOffset <<< 4) % 256) ||| (h.Flags &&& 0x3F))
      let data ← putUint16 data 14 16 h.WindowSize
      let data ← putUint16 data 16 18 0
      let data ← putUint16 data 18 20 h.UrgentPointer
      let data ← if h.Options.length > 0 then copyFrom data 20 h.Options else pure data
      let h := { h with Checksum := utils.CalculateChecksum data }
      let data ← putUint16 data 16 18 h.Checksum
      pure (data, h)

/-- The method `(*Header).Unmarshal`. The local `optionsLength` is a Go `int` and may
be negative. -/
def Header.Unmarshal (h : Header) (data : Bytes) : Result Header Unit :=
  if data.length < TCPHeaderLength then
    .error (.tcpHeaderTooShort data.length) h
  else
    Result.ofBody do
      let v ← getUint16 data 0 2
      let h := { h with SourcePort := v }
      let v ← getUint16 data 2 4
      let h := { h with DestinationPort := v }
      let v ← getUint32 data 4 8
      let h := { h with SequenceNumber := v }
      let v ← getUint32 data 8 12
      let h := { h with Acknowledgment := v }
      let b ← index data 12
      let h := { h with DataOffset := b >>> 4 }
      let b ← index data 12
      let h := { h with Flags := b &&& 0x3F }
      let v ← getUint16 data 14 16
      let h := { h with WindowSize := v }
      let v ← getUint16 data 16 18
      let h := { h with Checksum := v }
      let v ← getUint16 data 18 20
      let h := { h with UrgentPointer := v }
      let optionsLength : Int := (h.DataOffset : Int) * 4 - (TCPHeaderLength : Int)
      let h ←
        if optionsLength > 0 ∧ (data.length : Int) ≥ (TCPHeaderLength : Int) + optionsLength then do
          let h := { h with Options := make optionsLength.toNat }
          let s ← slice data 20 (20 + optionsLength.toNat)
          pure { h with Options := copyBytes h.Options s }
        else pure h
      pure ((), h)

/-- The method `(*Header).HasFlag`. -/
def Header.HasFlag (h : Header) (flag : Nat) : Bool :=
  (h.Flags &&& flag) != 0

/-- The constructor `tcp.NewHeader`. -/
def NewHeader (srcPort dstPort seqNum ackNum flags windowSize : Nat) : Header :=
  { SourcePort := srcPort, DestinationPort := dstPort, SequenceNumber := seqNum,
    Acknowledgment := ackNum, DataOffset := 5, Flags := flags, WindowSize := windowSize,
    Checksum := 0, UrgentPointer := 0, Options := [] }

end tcp

/-! UDP, `pkg/udp/packet.go` -/

namespace udp

def UDPHeaderLength : Nat := 8

/-- The struct `udp.Packet`. -/
structure Packet where
  SourcePort : Nat
  DestinationPort : Nat
  Length : Nat
  Checksum : Nat
  Payload : Bytes
  deriving DecidableEq, Repr

/-- Go type invariant of `udp.Packet`: the widths of the fields. -/
def Packet.Valid (p : Packet) : Prop :=
  p.SourcePort < 65536 ∧ p.DestinationPort < 65536 ∧ p.Length < 65536 ∧
  p.Checksum < 65536 ∧ isBytes p.Payload

instance (p : Packet) : Decidable p.Valid := by
  unfold Packet.Valid; exact inferInstance

/-- The method `(*Packet).Marshal`. -/
def Packet.Marshal (p : Packet) : Result Packet Bytes :=
  let totalLength := UDPHeaderLength + p.Payload.length
  if totalLength > 65535 then
    .error (.udpPacketTooLarge totalLength) p
  else
    Result.ofBody do
      let data := make totalLength
      let data ← putUint16 data 0 2 p.SourcePort
      let data ← putUint16 data 2 4 p.DestinationPort
      let data ← putUint16 data 4 6 (totalLength % 65536)
      let data ← putUint16 data 6 8 0
      let data ← copyFrom data 8 p.Payload
      let p := { p with Checksum := utils.CalculateChecksum data }
      let data ← putUint16 data 6 8 p.Checksum
      pure (data, p)

/-- The method `(*Packet).Unmarshal`. -/
def Packet.Unmarshal (p : Packet) (data : Bytes) : Result Packet Unit :=
  if data.length < UDPHeaderLength then
    .error (.udpPacketTooShort data.length) p
  else
    Result.ofBody do
      let v ← getUint16 data 0 2
      let p := { p with SourcePort := v }
      let v ← getUint16 data 2 4
      let p := { p with DestinationPort := v }
      let v ← getUint16 data 4 6
      let p := { p with Length := v }
      let v ← getUint16 data 6 8
      let p := { p with Checksum := v }
      let payloadLength := data.length - UDPHeaderLength
      let p := { p with Payload := make payloadLength }
      let s ← sliceFrom data 8
      let p := { p with Payload := copyBytes p.Payload s }
      pure ((), p)

/-- The constructor `udp.NewPacket`. -/
def NewPacket (srcPort dstPort : Nat) (payload : Bytes) : Packet :=
  { SourcePort := srcPort, DestinationPort := dstPort,
    Length := (UDPHeaderLength + payload.length) % 65536, Checksum := 0, Payload := payload }

end udp

/-! ICMP, `pkg/icmp/packet.go` -/

namespace icmp

def TypeEchoRequest : Nat := 8
def TypeEchoReply : Nat := 0
def TypeDestUnreach : Nat := 3
def TypeTimeExceeded : Nat := 11
def CodeEchoRequest : Nat := 0
def CodeEchoReply : Nat := 0

/-- The struct `icmp.Packet`; the field `Type` is spelled `Typ`, a reserved word in Lean. -/
structure Packet where
  Typ : Nat
  Code : Nat
  Checksum : Nat
  ID : Nat
  Sequence : Nat
  Data : Bytes
  deriving DecidableEq, Repr

/-- Go type invariant of `icmp.Packet`: the widths of the fields. -/
def Packet.Valid (p : Packet) : Prop :=
  p.Typ < 256 ∧ p.Code < 256 ∧ p.Checksum < 65536 ∧ p.ID < 65536 ∧
  p.Sequence < 65536 ∧ isBytes p.Data

instance (p : Packet) : Decidable p.Valid := by
  unfold Packet.Valid; exact inferInstance

/-- The method `(*Packet).Marshal`. -/
def Packet.Marshal (p : Packet) : Result Packet Bytes :=
  Result.ofBody do
    let dataLength := 8 + p.Data.length
    let data := make dataLength
    let data ← setIndex data 0 p.Typ
    let data ← setIndex data 1 p.Code
    let data ← putUint16 data 2 4 0
    let data ← putUint16 data 4 6 p.ID
    let data ← putUint16 data 6 8 p.Sequence
    let data ← copyFrom data 8 p.Data
    let p := { p with Checksum := utils.CalculateChecksum data }
    let data ← putUint16 data 2 4 p.Checksum
    pure (data, p)

/-- The method `(*Packet).Unmarshal`. -/
def Packet.Unmarshal (p : Packet) (data : Bytes) : Result Packet Unit :=
  if data.length < 8 then
    .error (.icmpPacketTooShort data.length) p
  else
    Result.ofBody do
      let b ← index data 0
      let p := { p with Typ := b }
      let b ← index data 1
      let p := { p with Code := b }
      let v ← getUint16 data 2 4
      let p := { p with Checksum := v }
      let v ← getUint16 data 4 6
      let p := { p with ID := v }
      let v ← getUint16 data 6 8
      let p := { p with Sequence := v }
      let p := { p with Data := make (data.length - 8) }
      let s ← sliceFrom data 8
      let p := { p with Data := copyBytes p.Data s }
      pure ((), p)

/-- The method `(*Packet).IsEchoRequest`. -/
def Packet.IsEchoRequest (p : Packet) : Bool := p.Typ == TypeEchoRequest

/-- The method `(*Packet).IsEchoReply`. -/
def Packet.IsEchoReply (p : Packet) : Bool := p.Typ == TypeEchoReply

/-- The method `(*Packet).CreateReply`. -/
def Packet.CreateReply (p : Packet) : Packet :=
  { Typ := TypeEchoReply, Code := CodeEchoReply, Checksum := 0, ID := p.ID,
    Sequence := p.Sequence, Data := p.Data }

/-- The constructor `icmp.NewEchoRequest`. -/
def NewEchoRequest (id sequence : Nat) (data : Bytes) : Packet :=
  { Typ := TypeEchoRequest, Code := CodeEchoRequest, Checksum := 0, ID := id,
    Sequence := sequence, Data := data }

end icmp

/-! TCP connection, `pkg/tcp/connection.go` -/

namespace tcp

/-- The eleven state names, the string constants `StateClosed` .. `StateTimeWait`. -/
inductive State where
  | Closed | Listen | SynSent | SynReceived | Established | FinWait1 | FinWait2
  | CloseWait | Closing | LastAck | TimeWait
  deriving DecidableEq, Repr

def StateClosed : State := .Closed
def StateListen : State := .Listen
def StateSynSent : State := .SynSent
def StateSynReceived : State := .SynReceived
def StateEstablished : State := .Established
def StateFinWait1 : State := .FinWait1
def StateFinWait2 : State := .FinWait2
def StateCloseWait : State := .CloseWait
def StateClosing : State := .Closing
def StateLastAck : State := .LastAck
def StateTimeWait : State := .TimeWait

def DefaultWindowSize : Nat := 65535

/-- One call of a callback slot of the connection. -/
inductive Event where
  | dataReceived (data : Bytes)
  | stateChanged (state : State)
  deriving DecidableEq, Repr

/-- What a function installed in `OnDataReceived` does with the connection when it is
called. `returns`: it returns without calling a method of the connection, as the
callback of `cmd/client` does, which only prints. `reenters`: it calls one of
`Connect`, `Listen`, `Send`, `Receive`, `Close` on the connection, as the callback of
`cmd/server` does with `conn.Send`. -/
inductive Callback where
  | returns
  | reenters
  deriving DecidableEq, Repr

/-- The struct `tcp.Connection`. `OnDataReceived` is nil (`none`) or holds a function,
described by what it does with the connection. `OnStateChanged` is `true` when a
function is installed and `false` when it is nil; the functions the repository installs
there only log, and the slot is modelled for functions that return. The calls made are
recorded as `Event`s. The timer slots are nil (`none`) or hold a timer. The logger,
which only writes to standard output, is not part of the model. The mutex `mu` is not a
field of the model: every method is entered with `mu` free, takes it in its first
statement and holds it until it returns (`defer c.mu.Unlock()`); `sync.Mutex` is not
reentrant, so a call of a method made while `mu` is held never returns. -/
structure Connection where
  LocalIP : Bytes
  LocalPort : Nat
  RemoteIP : Bytes
  RemotePort : Nat
  State : State
  SendSequence : Nat
  ReceiveSequence : Nat
  SendWindow : Nat
  ReceiveWindow : Nat
  SendBuffer : Bytes
  ReceiveBuffer : Bytes
  CongestionWindow : Nat
  SlowStartThreshold : Nat
  RetransmitTimer : Option Nat
  KeepAliveTimer : Option Nat
  OnDataReceived : Option Callback
  OnStateChanged : Bool
  deriving DecidableEq, Repr

/-- The constructor `tcp.NewConnection`. -/
def NewConnection (localIP : Bytes) (localPort : Nat) (remoteIP : Bytes) (remotePort : Nat) :
    Connection :=
  { LocalIP := localIP, LocalPort := localPort, RemoteIP := remoteIP, RemotePort := remotePort,
    State := StateClosed, SendSequence := 0, ReceiveSequence := 0,
    SendWindow := DefaultWindowSize, ReceiveWindow := DefaultWindowSize,
    SendBuffer := [], ReceiveBuffer := [],
    CongestionWindow := 1, SlowStartThreshold := 65535,
    RetransmitTimer := none, KeepAliveTimer := none,
    OnDataReceived := none, OnStateChanged := false }

/-- The method `(*Connection).handleSynAck`: the receiver after the call and the
callbacks it made. -/
def Connection.handleSynAck (c : Connection) (synHeader : Header) : Connection × List Event :=
  let c := { c with ReceiveSequence := (synHeader.SequenceNumber + 1) % 4294967296 }
  let _ack := NewHeader c.LocalPort c.RemotePort c.SendSequence c.ReceiveSequence FlagACK
    c.SendWindow
  let c := { c with State := StateEstablished }
  if c.OnStateChanged then (c, [Event.stateChanged c.State]) else (c, [])

/-- The method `(*Connection).Connect`; `rnd` is the value returned by `rand.Uint32()`.
The state of the result pairs the receiver with the callbacks made during the call. -/
def Connection.Connect (c : Connection) (rnd : Nat) : Result (Connection × List Event) Unit :=
  if c.State ≠ StateClosed then
    .error .notClosed (c, [])
  else
    let c := { c with SendSequence := rnd }
    let c := { c with ReceiveSequence := 0 }
    let synHeader := NewHeader c.LocalPort c.RemotePort c.SendSequence 0 FlagSYN c.SendWindow
    let c := { c with State := StateSynSent }
    let r := c.handleSynAck synHeader
    .ok () r

/-- The method `(*Connection).Listen`. -/
def Connection.Listen (c : Connection) : Result (Connection × List Event) Unit :=
  let c := { c with State := StateListen }
  .ok () (c, [])

/-- The method `(*Connection).Send`. The header built for the segment is discarded
by the source (`_ = NewHeader(...)`). -/
def Connection.Send (c : Connection) (data : Bytes) : Result (Connection × List Event) Unit :=
  if c.State ≠ StateEstablished then
    .error .notEstablished (c, [])
  else
    let c := { c with SendBuffer := c.SendBuffer ++ data }
    let _segment := NewHeader c.LocalPort c.RemotePort c.SendSequence c.ReceiveSequence
      (FlagPSH ||| FlagACK) c.SendWindow
    let c := { c with
      SendSequence := (c.SendSequence + data.length % 4294967296) % 4294967296 }
    .ok () (c, [])

/-- The method `(*Connection).Receive`. The call `c.OnDataReceived(data)` is made with
`c.mu` held: a callback that returns lets `Receive` return nil; a callback that calls a
method of the connection waits in that method for `c.mu`, which `Receive` only releases
when it returns, so neither ever returns. -/
def Connection.Receive (c : Connection) (data : Bytes) :
    Result (Connection × List Event) Unit :=
  let c := { c with ReceiveBuffer := c.ReceiveBuffer ++ data }
  let c := { c with
    ReceiveSequence := (c.ReceiveSequence + data.length % 4294967296) % 4294967296 }
  let _ack := NewHeader c.LocalPort c.RemotePort c.SendSequence c.ReceiveSequence FlagACK
    c.ReceiveWindow
  match c.OnDataReceived with
  | none => .ok () (c, [])
  | some Callback.returns => .ok () (c, [Event.dataReceived data])
  | some Callback.reenters => .blocked (c, [Event.dataReceived data])

/-- The method `(*Connection).Close`. -/
def Connection.Close (c : Connection) : Result (Connection × List Event) Unit :=
  if c.State = StateClosed then
    .ok () (c, [])
  else
    let _fin := NewHeader c.LocalPort c.RemotePort c.SendSequence c.ReceiveSequence
      (FlagFIN ||| FlagACK) c.SendWindow
    let c := { c with State := StateFinWait1 }
    let c := { c with State := StateClosed }
    .ok () (c, [])

/-- The receiver as a call leaves it, whether the call returned nil or an error or
waits for ever; a panicking call leaves it as it was. -/
def afterCall (c : Connection) : Result (Connection × List Event) Unit → Connection
  | .ok _ st => st.1
  | .error _ st => st.1
  | .panic => c
  | .blocked st => st.1

/-- A data operation on a connection: a call of `Send` or of `Receive`. -/
inductive Op where
  | send (data : Bytes)
  | receive (data : Bytes)
  deriving DecidableEq, Repr

/-- The receiver after one data operation. -/
def Op.apply (c : Connection) : Op → Connection
  | .send data => afterCall c (c.Send data)
  | .receive data => afterCall c (c.Receive data)

/-- The receiver after a sequence of data operations, first to last. -/
def runOps (c : Connection) (ops : List Op) : Connection :=
  ops.foldl Op.apply c

/-- A connection as `NewConnection` makes it, with the two callback fields then set (to
a function that returns) or left nil as the two flags say. -/
def freshConnection (localIP : Bytes) (localPort : Nat) (remoteIP : Bytes) (remotePort : Nat)
    (onData onState : Bool) : Connection :=
  { NewConnection localIP localPort remoteIP remotePort with
      OnDataReceived := if onData then some Callback.returns else none,
      OnStateChanged := onState }

/-- The receiver after `Connect`, drawing the initial sequence number `rnd`, followed by a
sequence of data operations. -/
def connectThenRun (c : Connection) (rnd : Nat) (ops : List Op) : Connection :=
  runOps (afterCall c (c.Connect rnd)) ops

end tcp

/-! Byte images. These name the byte sequences that the encoders are shown to
produce, with the value `c` in the checksum field. -/

/-- The Ethernet image: both addresses, the type, the payload. -/
def eth.Frame.image (f : eth.Frame) : Bytes :=
  f.DestinationMAC ++ f.SourceMAC ++ be16 f.EtherType ++ f.Payload

/-- The IPv4 image with `c` in the checksum field, bytes 10 and 11. -/
def ip.Header.image (h : ip.Header) (c : Nat) : Bytes :=
  [((h.Version <<< 4) % 256) ||| h.IHL, h.TOS] ++ be16 h.TotalLength ++
    be16 h.Identification ++ be16 ((h.Flags &&& 0xE000) ||| (h.FragmentOffset &&& 0x1FFF)) ++
    [h.TTL, h.Protocol] ++ be16 c ++ h.SourceIP ++ h.DestinationIP

/-- The TCP image with `c` in the checksum field, bytes 16 and 17. -/
def tcp.Header.image (h : tcp.Header) (c : Nat) : Bytes :=
  be16 h.SourcePort ++ be16 h.DestinationPort ++ be32 h.SequenceNumber ++
    be32 h.Acknowledgment ++
    [(((((tcp.TCPHeaderLength + h.Options.length) / 4) % 256) <<< 4) % 256) |||
        (h.Flags &&& 0x3F), 0] ++
    be16 h.WindowSize ++ be16 c ++ be16 h.UrgentPointer ++ h.Options

/-- The UDP image with `c` in the checksum field, bytes 6 and 7. -/
def udp.Packet.image (p : udp.Packet) (c : Nat) : Bytes :=
  be16 p.SourcePort ++ be16 p.DestinationPort ++
    be16 ((udp.UDPHeaderLength + p.Payload.length) % 65536) ++ be16 c ++ p.Payload

/-- The ICMP image with `c` in the checksum field, bytes 2 and 3. -/
def icmp.Packet.image (p : icmp.Packet) (c : Nat) : Bytes :=
  [p.Typ, p.Code] ++ be16 c ++ be16 p.ID ++ be16 p.Sequence ++ p.Data

theorem slice_eq_some (data : Bytes) (lo hi : Nat) (h1 : lo ≤ hi) (h2 : hi ≤ data.length) :
    slice data lo hi = some ((data.drop lo).take (hi - lo)) := by
  simp [slice, h1, h2]

theorem slice_append_mid (A B C : Bytes) (lo hi : Nat) (hlo : A.length = lo)
    (hhi : lo + B.length = hi) : slice (A ++ B ++ C) lo hi = some B := by
  subst hlo; subst hhi
  rw [slice_eq_some _ _ _ (by omega) (by simp)]
  simp [List.append_assoc]

theorem sliceFrom_append (A B : Bytes) (lo : Nat) (hlo : A.length = lo) :
    sliceFrom (A ++ B) lo = some B := by
  subst hlo
  unfold sliceFrom
  rw [slice_eq_some _ _ _ (by simp) (le_refl _)]
  simp

theorem copyBytes_same_length (dst src : Bytes) (h : dst.length = src.length) :
    copyBytes dst src = src := by
  simp [copyBytes, h]

/-- Writing `src` at the frontier `A.length` of a buffer `A ++ rest`. -/
theorem copyInto_append (A rest src : Bytes) (lo hi : Nat) (hlo : A.length = lo)
    (hhi : lo + src.length = hi) (hr : src.length ≤ rest.length) :
    copyInto (A ++ rest) lo hi src = some (A ++ src ++ rest.drop src.length) := by
  subst hlo; subst hhi
  unfold copyInto
  rw [slice_eq_some _ _ _ (by omega) (by simp; omega)]
  have e1 : List.drop (A.length + src.length) A = [] := List.drop_eq_nil_of_le (by omega)
  have e2 : List.drop src.length (List.take src.length rest) = [] :=
    List.drop_eq_nil_of_le (by simp)
  simp [copyBytes, List.take_append_eq_append_take, List.drop_append_eq_append_drop, hr, e1, e2]

theorem copyFrom_append (A rest src : Bytes) (lo : Nat) (hlo : A.length = lo)
    (hr : src.length = rest.length) :
    copyFrom (A ++ rest) lo src = some (A ++ src) := by
  subst hlo
  unfold copyFrom copyInto
  rw [slice_eq_some _ _ _ (by simp) (le_refl _)]
  simp [copyBytes, hr]

theorem putUint16_append (A rest : Bytes) (lo hi v : Nat) (hlo : A.length = lo)
    (hhi : lo + 2 = hi) (hr : 2 ≤ rest.length) :
    putUint16 (A ++ rest) lo hi v = some (A ++ be16 v ++ rest.drop 2) := by
  have h := copyInto_append A rest (be16 v) lo hi hlo (by simpa [be16] using hhi)
    (by simpa [be16] using hr)
  unfold copyInto at h
  unfold putUint16
  subst hlo; subst hhi
  rw [slice_eq_some _ _ _ (by omega) (by simp; omega)] at h ⊢
  have hl : ((List.drop A.length (A ++ rest)).take (A.length + 2 - A.length)).length = 2 := by
    simp; omega
  simpa [hl, be16, hr] using h

theorem putUint32_append (A rest : Bytes) (lo hi v : Nat) (hlo : A.length = lo)
    (hhi : lo + 4 = hi) (hr : 4 ≤ rest.length) :
    putUint32 (A ++ rest) lo hi v = some (A ++ be32 v ++ rest.drop 4) := by
  have h := copyInto_append A rest (be32 v) lo hi hlo (by simpa [be32] using hhi)
    (by simpa [be32] using hr)
  unfold copyInto at h
  unfold putUint32
  subst hlo; subst hhi
  rw [slice_eq_some _ _ _ (by omega) (by simp; omega)] at h ⊢
  have hl : ((List.drop A.length (A ++ rest)).take (A.length + 4 - A.length)).length = 4 := by
    simp; omega
  simpa [hl, be32, hr] using h

theorem setIndex_append (A rest : Bytes) (i v : Nat) (hi : A.length = i)
    (hr : 1 ≤ rest.length) :
    setIndex (A ++ rest) i v = some (A ++ [v] ++ rest.drop 1) := by
  subst hi
  unfold setIndex
  cases rest with
  | nil => simp at hr
  | cons r rs => simp [List.set_append]

theorem index_append (A C : Bytes) (i v : Nat) (hi : A.length = i) :
    index (A ++ [v] ++ C) i = some v := by
  subst hi
  unfold index
  rw [List.append_assoc, List.getElem?_append_right (le_refl _)]
  simp

theorem make_drop (n k : Nat) : (make n).drop k = make (n - k) := by
  simp [make]

theorem length_make (n : Nat) : (make n).length = n := by simp [make]

theorem lor_shiftLeft_eq (a b i : Nat) (hb : b < 2 ^ i) : b ||| (a <<< i) = a * 2 ^ i + b := by
  rw [Nat.lor_comm, Nat.shiftLeft_eq, Nat.mul_comm a, Nat.mul_add_lt_is_or hb]

theorem word16_eq (b0 b1 : Nat) (h0 : b0 < 256) (h1 : b1 < 256) :
    word16 b0 b1 = 256 * b0 + b1 := by
  unfold word16
  rw [lor_shiftLeft_eq b0 b1 8 (by omega)]
  omega

theorem word16_lt (b0 b1 : Nat) : word16 b0 b1 < 65536 := by
  unfold word16; omega

theorem beUint16_be16 (v : Nat) (hv : v < 65536) : beUint16 (be16 v) = some v := by
  simp only [be16, beUint16, Nat.shiftRight_eq_div_pow]
  rw [word16_eq _ _ (by omega) (by omega)]
  congr 1
  omega

theorem beUint32_be32 (v : Nat) (hv : v < 4294967296) : beUint32 (be32 v) = some v := by
  simp only [be32, beUint32, Nat.shiftRight_eq_div_pow]
  rw [lor_shiftLeft_eq _ _ 8 (by omega), lor_shiftLeft_eq _ _ 16 (by omega),
    lor_shiftLeft_eq _ _ 24 (by omega)]
  congr 1
  omega

theorem isBytes_be16 (v : Nat) : isBytes (be16 v) := by
  intro b hb
  simp [be16] at hb
  omega

theorem getUint16_append (A C : Bytes) (lo hi v : Nat) (hlo : A.length = lo)
    (hhi : lo + 2 = hi) (hv : v < 65536) :
    getUint16 (A ++ be16 v ++ C) lo hi = some v := by
  unfold getUint16
  rw [slice_append_mid A (be16 v) C lo hi hlo (by simpa [be16] using hhi)]
  simpa using beUint16_be16 v hv

theorem getUint32_append (A C : Bytes) (lo hi v : Nat) (hlo : A.length = lo)
    (hhi : lo + 4 = hi) (hv : v < 4294967296) :
    getUint32 (A ++ be32 v ++ C) lo hi = some v := by
  unfold getUint32
  rw [slice_append_mid A (be32 v) C lo hi hlo (by simpa [be32] using hhi)]
  simpa using beUint32_be32 v hv

/-! Reads of an arbitrary buffer that is long enough -/

theorem index_eq_some (data : Bytes) (i : Nat) (h : i < data.length) :
    index data i = some (data.getD i 0) := by
  simp [index, List.getD, List.getElem?_eq_getElem h]

theorem sliceFrom_eq_some (data : Bytes) (lo : Nat) (h : lo ≤ data.length) :
    sliceFrom data lo = some (data.drop lo) := by
  unfold sliceFrom
  rw [slice_eq_some _ _ _ h (le_refl _)]
  simp

theorem getUint16_eq_some (data : Bytes) (lo hi : Nat) (h1 : lo + 2 = hi)
    (h2 : hi ≤ data.length) :
    getUint16 data lo hi = some (word16 (data.getD lo 0) (data.getD (lo + 1) 0)) := by
  subst h1
  unfold getUint16
  rw [slice_eq_some _ _ _ (by omega) h2]
  have hl : (data.drop lo).length = data.length - lo := by simp
  match hd : data.drop lo, hl with
  | [], hl => simp at hl; omega
  | [_], hl => simp at hl; omega
  | b0 :: b1 :: rest, _ =>
    have e0 : data.getD lo 0 = b0 := by
      have := congrArg (fun l => l.getD 0 0) hd
      simpa [List.getD] using this
    have e1 : data.getD (lo + 1) 0 = b1 := by
      have := congrArg (fun l => l.getD 1 0) hd
      simpa [List.getD] using this
    rw [e0, e1]
    simp [beUint16]

theorem getUint32_isSome (data : Bytes) (lo hi : Nat) (h1 : lo + 4 = hi)
    (h2 : hi ≤ data.length) : ∃ v, getUint32 data lo hi = some v := by
  subst h1
  unfold getUint32
  rw [slice_eq_some _ _ _ (by omega) h2]
  have hl : (data.drop lo).length = data.length - lo := by simp
  match hd : data.drop lo, hl with
  | [], hl => simp at hl; omega
  | [_], hl => simp at hl; omega
  | [_, _], hl => simp at hl; omega
  | [_, _, _], hl => simp at hl; omega
  | b0 :: b1 :: b2 :: b3 :: rest, _ => simp [beUint32]

theorem list_length_four (l : Bytes) (h : l.length = 4) :
    ∃ a b c d, l = [a, b, c, d] := by
  match l, h with
  | [a, b, c, d], _ => exact ⟨a, b, c, d, rfl⟩

theorem list_length_six (l : Bytes) (h : l.length = 6) :
    ∃ a b c d e f, l = [a, b, c, d, e, f] := by
  match l, h with
  | [a, b, c, d, e, f], _ => exact ⟨a, b, c, d, e, f, rfl⟩

theorem word16_hi_lo (v : Nat) (hv : v < 65536) : word16 (v >>> 8 % 256) (v % 256) = v := by
  rw [Nat.shiftRight_eq_div_pow, word16_eq _ _ (by omega) (by omega)]
  omega

/-! Closed forms of the encoders -/

theorem eth_Marshal_eq (f : eth.Frame) (hd : f.DestinationMAC.length = 6)
    (hs : f.SourceMAC.length = 6) (hp : f.Payload.length ≤ 1500) :
    f.Marshal = .ok f.image f := by
  obtain ⟨d0, d1, d2, d3, d4, d5, hd⟩ := list_length_six _ hd
  obtain ⟨s0, s1, s2, s3, s4, s5, hs⟩ := list_length_six _ hs
  have hp2 : ¬ (1500 < f.Payload.length) := by omega
  simp [eth.Frame.Marshal, eth.Frame.image, eth.EthernetHeaderLength, hd, hs, hp2, make,
    putUint16, copyInto, copyFrom, slice, copyBytes, be16, Result.ofBody, Nat.add_comm 14,
    List.replicate_succ]

theorem ip_Marshal_eq (h : ip.Header) (hs : h.SourceIP.length = 4)
    (hd : h.DestinationIP.length = 4) :
    h.Marshal = .ok (h.image (utils.CalculateChecksum (h.image 0)))
      { h with Checksum := utils.CalculateChecksum (h.image 0) } := by
  obtain ⟨s0, s1, s2, s3, hs⟩ := list_length_four _ hs
  obtain ⟨d0, d1, d2, d3, hd⟩ := list_length_four _ hd
  simp [ip.Header.Marshal, ip.Header.image, hs, hd, make, setIndex, putUint16, copyInto, slice,
    copyBytes, be16, ip.IPHeaderLength, Result.ofBody, List.replicate]

theorem udp_Marshal_eq (p : udp.Packet) (hp : p.Payload.length ≤ 65527) :
    p.Marshal = .ok (p.image (utils.CalculateChecksum (p.image 0)))
      { p with Checksum := utils.CalculateChecksum (p.image 0) } := by
  have hp2 : ¬ (65535 < p.Payload.length + 8) := by omega
  simp [udp.Packet.Marshal, udp.Packet.image, udp.UDPHeaderLength, hp2, make, putUint16,
    copyInto, copyFrom, slice, copyBytes, be16, Result.ofBody, Nat.add_comm 8,
    List.replicate_succ]

theorem icmp_Marshal_eq (p : icmp.Packet) :
    p.Marshal = .ok (p.image (utils.CalculateChecksum (p.image 0)))
      { p with Checksum := utils.CalculateChecksum (p.image 0) } := by
  simp [icmp.Packet.Marshal, icmp.Packet.image, make, setIndex, putUint16,
    copyInto, copyFrom, slice, copyBytes, be16, Result.ofBody, Nat.add_comm 8,
    List.replicate_succ]

theorem tcp_Marshal_eq (h : tcp.Header) (ho : h.Options.length ≤ 40) :
    h.Marshal = .ok (h.image (utils.CalculateChecksum (h.image 0)))
      { h with Checksum := utils.CalculateChecksum (h.image 0) } := by
  have ho2 : ¬ (60 < h.Options.length + 20) := by omega
  by_cases hz : h.Options = []
  · simp [tcp.Header.Marshal, tcp.Header.image, tcp.TCPHeaderLength, hz, make, setIndex,
      putUint16, putUint32, copyInto, copyFrom, slice, copyBytes, be16, be32, Result.ofBody,
      List.replicate]
  · have hpos : 0 < h.Options.length := List.length_pos.mpr hz
    simp [tcp.Header.Marshal, tcp.Header.image, tcp.TCPHeaderLength, ho2, hpos, make, setIndex,
      putUint16, putUint32, copyInto, copyFrom, slice, copyBytes, be16, be32, Result.ofBody,
      Nat.add_comm 20, List.replicate_succ]

/-! Bit packing -/

theorem nibbles_unpack : ∀ v < 16, ∀ i < 16,
    (((v <<< 4) % 256) ||| i) >>> 4 = v ∧ (((v <<< 4) % 256) ||| i) &&& 0x0F = i := by
  decide

theorem and_mask_of_lt (x n : Nat) (h : x < 2 ^ n) : x &&& (2 ^ n - 1) = x := by
  rw [Nat.and_pow_two_sub_one_eq_mod, Nat.mod_eq_of_lt h]

theorem flags_high_bits (f : Nat) (hf : f < 65536) (hz : f &&& 0x1FFF = 0) :
    f &&& 0xE000 = f := by
  have h1 : f &&& 0xFFFF = f := and_mask_of_lt f 16 hf
  have h2 : (0xFFFF : Nat) = 0xE000 ||| 0x1FFF := by decide
  rw [h2, Nat.and_or_distrib_left, hz, Nat.or_zero] at h1
  exact h1

theorem flagsAndOffset_lt (f o : Nat) : (f &&& 0xE000) ||| (o &&& 0x1FFF) < 65536 := by
  have h1 : f &&& 0xE000 < 2 ^ 16 := Nat.lt_of_le_of_lt Nat.and_le_right (by decide)
  have h2 : o &&& 0x1FFF < 2 ^ 16 := Nat.lt_of_le_of_lt Nat.and_le_right (by decide)
  exact Nat.or_lt_two_pow h1 h2

theorem CalculateChecksum_lt (data : Bytes) : utils.CalculateChecksum data < 65536 := by
  unfold utils.CalculateChecksum
  simp only
  omega

theorem high_and_low (o : Nat) (ho : o ≤ 0x1FFF) : o &&& 0xE000 = 0 := by
  have ho2 : o &&& 0x1FFF = o := and_mask_of_lt o 13 (by omega)
  have e1 : (0x1FFF : Nat) &&& 0xE000 = 0 := by decide
  rw [← ho2, Nat.and_assoc, e1, Nat.and_zero]

theorem flagsAndOffset_unpack (f o : Nat) (hf : f < 65536) (hz : f &&& 0x1FFF = 0)
    (ho : o ≤ 0x1FFF) :
    ((f &&& 0xE000) ||| (o &&& 0x1FFF)) &&& 0xE000 = f ∧
    ((f &&& 0xE000) ||| (o &&& 0x1FFF)) &&& 0x1FFF = o := by
  have ho2 : o &&& 0x1FFF = o := and_mask_of_lt o 13 (by omega)
  have hf2 : f &&& 0xE000 = f := flags_high_bits f hf hz
  have ho3 : o &&& 0xE000 = 0 := high_and_low o ho
  rw [ho2, hf2]
  constructor
  · rw [Nat.and_comm, Nat.and_or_distrib_left, Nat.and_comm _ f, hf2, Nat.and_comm _ o, ho3,
      Nat.or_zero]
  · rw [Nat.and_comm, Nat.and_or_distrib_left, Nat.and_comm _ f, hz, Nat.and_comm _ o, ho2,
      Nat.zero_or]

theorem eth_Unmarshal_image (f g : eth.Frame) (hfd : f.DestinationMAC.length = 6)
    (hfs : f.SourceMAC.length = 6) (hfe : f.EtherType < 65536)
    (hgd : g.DestinationMAC.length = 6) (hgs : g.SourceMAC.length = 6) :
    g.Unmarshal f.image = .ok () f := by
  obtain ⟨d0, d1, d2, d3, d4, d5, hd⟩ := list_length_six _ hfd
  obtain ⟨s0, s1, s2, s3, s4, s5, hs⟩ := list_length_six _ hfs
  have hg1 : List.drop 6 g.DestinationMAC = [] := List.drop_eq_nil_of_le (by omega)
  have hg2 : List.drop 6 g.SourceMAC = [] := List.drop_eq_nil_of_le (by omega)
  cases f with
  | mk fd fs fe fp =>
    simp only at hd hs hfe
    subst hd; subst hs
    simp [eth.Frame.Unmarshal, eth.Frame.image, eth.EthernetHeaderLength, hg1, hg2, hgd, hgs, make,
      getUint16, sliceFrom, slice, copyBytes, be16, beUint16, Result.ofBody,
      word16_hi_lo fe hfe]

theorem ip_Unmarshal_image (h g : ip.Header) (c : Nat) (hc : c < 65536)
    (hv : h.Version ≤ 15) (hi : h.IHL ≤ 15) (htl : h.TotalLength < 65536)
    (hid : h.Identification < 65536) (hf : h.Flags < 65536) (hfz : h.Flags &&& 0x1FFF = 0)
    (hfo : h.FragmentOffset ≤ 0x1FFF)
    (hs : h.SourceIP.length = 4) (hd : h.DestinationIP.length = 4)
    (hgs : g.SourceIP.length = 4) (hgd : g.DestinationIP.length = 4) :
    g.Unmarshal (h.image c) = .ok () { h with Checksum := c } := by
  obtain ⟨s0, s1, s2, s3, hs⟩ := list_length_four _ hs
  obtain ⟨d0, d1, d2, d3, hd⟩ := list_length_four _ hd
  have hn := nibbles_unpack h.Version (by omega) h.IHL (by omega)
  have hu := flagsAndOffset_unpack h.Flags h.FragmentOffset hf hfz hfo
  have hlt := flagsAndOffset_lt h.Flags h.FragmentOffset
  simp [ip.Header.Unmarshal, ip.Header.image, ip.IPHeaderLength, hs, hd, hgs, hgd, index,
    getUint16, slice, copyBytes, be16, beUint16, Result.ofBody, word16_hi_lo _ htl,
    word16_hi_lo _ hid, word16_hi_lo _ hc, word16_hi_lo _ hlt, hn.1, hn.2, hu.1, hu.2]

theorem udp_Unmarshal_image (p g : udp.Packet) (c : Nat) (hc : c < 65536)
    (hsp : p.SourcePort < 65536) (hdp : p.DestinationPort < 65536) :
    g.Unmarshal (p.image c) = .ok ()
      { p with Checksum := c, Length := (udp.UDPHeaderLength + p.Payload.length) % 65536 } := by
  have hl : (udp.UDPHeaderLength + p.Payload.length) % 65536 < 65536 := by omega
  simp [udp.Packet.Unmarshal, udp.Packet.image, make, sliceFrom,
    getUint16, slice, copyBytes, be16, beUint16, Result.ofBody, word16_hi_lo _ hsp,
    word16_hi_lo _ hdp, word16_hi_lo _ hc, word16_hi_lo _ hl]
  simp [udp.UDPHeaderLength]

theorem icmp_Unmarshal_image (p g : icmp.Packet) (c : Nat) (hc : c < 65536)
    (hid : p.ID < 65536) (hsq : p.Sequence < 65536) :
    g.Unmarshal (p.image c) = .ok () { p with Checksum := c } := by
  simp [icmp.Packet.Unmarshal, icmp.Packet.image, make, sliceFrom, index,
    getUint16, slice, copyBytes, be16, beUint16, Result.ofBody, word16_hi_lo _ hid,
    word16_hi_lo _ hsq, word16_hi_lo _ hc]

/-! The checksum -/

theorem foldCarry_spec : ∀ (fuel s : Nat), s ≤ fuel → s < 4294967296 →
    utils.foldCarry fuel s = specFoldAux fuel s ∧ utils.foldCarry fuel s ≤ 65535 ∧
    utils.foldCarry fuel s % 65535 = s % 65535 ∧ (0 < s → 0 < utils.foldCarry fuel s) ∧
    utils.foldCarry fuel s ≤ s
  | 0, s, h, _ => by
    have : s = 0 := by omega
    subst this
    simp [utils.foldCarry, specFoldAux]
  | fuel + 1, s, h, hs => by
    by_cases hgt : s > 0xffff
    · have e1 : s &&& 0xffff = s % 65536 := Nat.and_pow_two_sub_one_eq_mod s 16
      have e2 : s >>> 16 = s / 65536 := Nat.shiftRight_eq_div_pow s 16
      have e3 : (s % 65536 + s / 65536) % 4294967296 = s % 65536 + s / 65536 := by omega
      have ih := foldCarry_spec fuel (s % 65536 + s / 65536) (by omega) (by omega)
      have hlt : ¬ s < 65536 := by omega
      simp only [utils.foldCarry, specFoldAux, if_pos hgt, if_neg hlt, e1, e2, e3]
      refine ⟨ih.1, ih.2.1, ?_, fun _ => ih.2.2.2.1 (by omega), by have := ih.2.2.2.2; omega⟩
      rw [ih.2.2.1]
      omega
    · have hlt : s < 65536 := by omega
      simp only [utils.foldCarry, specFoldAux, if_neg hgt, if_pos hlt]
      simp
      omega

theorem specWordSum_append : ∀ (pre post : Bytes), pre.length % 2 = 0 →
    specWordSum (pre ++ post) = specWordSum pre + specWordSum post
  | [], post, _ => by simp [specWordSum]
  | [_], _, h => by simp at h
  | b0 :: b1 :: rest, post, h => by
    have ih := specWordSum_append rest post (by simp only [List.length_cons] at h; omega)
    rw [List.cons_append, List.cons_append, specWordSum, specWordSum, ih]
    omega

theorem specWordSum_le : ∀ (data : Bytes), isBytes data →
    specWordSum data ≤ 65535 * ((data.length + 1) / 2)
  | [], _ => by simp [specWordSum]
  | [b0], h => by
    have h0 : b0 < 256 := h b0 (by simp)
    simp [specWordSum]
    omega
  | b0 :: b1 :: rest, h => by
    have h0 : b0 < 256 := h b0 (by simp)
    have h1 : b1 < 256 := h b1 (by simp)
    have ih := specWordSum_le rest (fun b hb => h b (by simp [hb]))
    simp only [specWordSum, List.length_cons]
    omega

theorem getD_last_cons_cons (b0 b1 : Nat) (rest : Bytes) (h : rest.length % 2 = 1) :
    (b0 :: b1 :: rest).getD ((b0 :: b1 :: rest).length - 1) 0 = rest.getD (rest.length - 1) 0 := by
  have : (b0 :: b1 :: rest).length - 1 = (rest.length - 1) + 1 + 1 := by
    simp only [List.length_cons]; omega
  rw [this]
  simp [List.getD]

/-- The accumulator after both summing steps of `CalculateChecksum`. -/
theorem sumWords_oddTail : ∀ (data : Bytes) (acc : Nat), isBytes data → acc < 4294967296 →
    (if data.length % 2 = 1 then
        (utils.sumWords data acc + ((data.getD (data.length - 1) 0) <<< 8) % 4294967296)
          % 4294967296
      else utils.sumWords data acc) = (acc + specWordSum data) % 4294967296
  | [], acc, _, ha => by simp [utils.sumWords, specWordSum]; omega
  | [b0], acc, h, ha => by
    simp [utils.sumWords, specWordSum, List.getD, Nat.shiftLeft_eq]
    omega
  | b0 :: b1 :: rest, acc, h, ha => by
    have h0 : b0 < 256 := h b0 (by simp)
    have h1 : b1 < 256 := h b1 (by simp)
    have ih := sumWords_oddTail rest ((acc + word16 b0 b1) % 4294967296)
      (fun b hb => h b (by simp [hb])) (by omega)
    have hw := word16_eq b0 b1 h0 h1
    have hpar : (b0 :: b1 :: rest).length % 2 = rest.length % 2 := by
      simp only [List.length_cons]; omega
    by_cases hodd : rest.length % 2 = 1
    · rw [if_pos (by rw [hpar]; exact hodd), getD_last_cons_cons b0 b1 rest hodd]
      rw [if_pos hodd] at ih
      simp only [utils.sumWords, specWordSum]
      rw [ih, hw]
      omega
    · rw [if_neg (by rw [hpar]; exact hodd)]
      rw [if_neg hodd] at ih
      simp only [utils.sumWords, specWordSum]
      rw [ih, hw]
      omega

theorem CalculateChecksum_eq (data : Bytes) (hb : isBytes data) :
    utils.CalculateChecksum data =
      65535 - utils.foldCarry (specWordSum data % 4294967296) (specWordSum data % 4294967296) := by
  have h := sumWords_oddTail data 0 hb (by omega)
  simp only [Nat.zero_add] at h
  have hf := foldCarry_spec (specWordSum data % 4294967296) (specWordSum data % 4294967296)
    (le_refl _) (by omega)
  unfold utils.CalculateChecksum
  simp only [h]
  omega

theorem isBytes_append (a b : Bytes) (ha : isBytes a) (hb : isBytes b) : isBytes (a ++ b) := by
  intro x hx
  rcases List.mem_append.mp hx with h | h
  · exact ha x h
  · exact hb x h

theorem specWordSum_be16 (v : Nat) (hv : v < 65536) : specWordSum (be16 v) = v := by
  simp only [be16, specWordSum, Nat.shiftRight_eq_div_pow]
  omega

theorem specWordSum_field (pre post : Bytes) (v : Nat) (hv : v < 65536)
    (heven : pre.length % 2 = 0) :
    specWordSum (pre ++ be16 v ++ post) = specWordSum pre + v + specWordSum post := by
  rw [specWordSum_append (pre ++ be16 v) post (by simp [be16]; omega),
    specWordSum_append pre (be16 v) heven, specWordSum_be16 v hv]

/-- The one-complement sum of an image that carries its own checksum is zero. -/
theorem checksum_of_embedded (pre post : Bytes) (hpre : isBytes pre) (hpost : isBytes post)
    (heven : pre.length % 2 = 0) (hlen : pre.length + 2 + post.length ≤ 65535) :
    utils.CalculateChecksum
      (pre ++ be16 (utils.CalculateChecksum (pre ++ be16 0 ++ post)) ++ post) = 0 := by
  have hb0 : isBytes (pre ++ be16 0 ++ post) :=
    isBytes_append _ _ (isBytes_append _ _ hpre (isBytes_be16 0)) hpost
  have hc := CalculateChecksum_lt (pre ++ be16 0 ++ post)
  have hb1 : isBytes (pre ++ be16 (utils.CalculateChecksum (pre ++ be16 0 ++ post)) ++ post) :=
    isBytes_append _ _ (isBytes_append _ _ hpre (isBytes_be16 _)) hpost
  have hs0 := specWordSum_field pre post 0 (by omega) heven
  have hs1 := specWordSum_field pre post _ hc heven
  have hle0 := specWordSum_le _ hb0
  have hle1 := specWordSum_le _ hb1
  have hl0 : (pre ++ be16 0 ++ post).length = pre.length + 2 + post.length := by
    simp [be16]; omega
  have hl1 : (pre ++ be16 (utils.CalculateChecksum (pre ++ be16 0 ++ post)) ++ post).length
      = pre.length + 2 + post.length := by simp [be16]; omega
  rw [hl0] at hle0
  rw [hl1] at hle1
  have e0 := CalculateChecksum_eq _ hb0
  have e1 := CalculateChecksum_eq _ hb1
  generalize utils.CalculateChecksum (pre ++ be16 0 ++ post) = c at *
  generalize specWordSum (pre ++ be16 0 ++ post) = S0 at *
  generalize specWordSum (pre ++ be16 c ++ post) = S1 at *
  have hS0 : S0 < 4294967296 := by omega
  have hS1 : S1 < 4294967296 := by omega
  rw [Nat.mod_eq_of_lt hS0] at e0
  rw [Nat.mod_eq_of_lt hS1] at e1
  have f0 := foldCarry_spec S0 S0 (le_refl _) hS0
  have f1 := foldCarry_spec S1 S1 (le_refl _) hS1
  generalize utils.foldCarry S0 S0 = F0 at *
  generalize utils.foldCarry S1 S1 = F1 at *
  obtain ⟨-, f0a, f0b, f0c, f0d⟩ := f0
  obtain ⟨-, f1a, f1b, f1c, f1d⟩ := f1
  rw [e1]
  have hS1pos : 0 < S1 := by omega
  have := f1c hS1pos
  omega

theorem zeroField_field (pre post : Bytes) (v : Nat) (off : Nat) (h : pre.length = off) :
    zeroField (pre ++ be16 v ++ post) off = pre ++ be16 0 ++ post := by
  subst h
  simp [zeroField, be16, List.take_append_eq_append_take, List.drop_append_eq_append_drop]

/-! Decoders on arbitrary input -/

theorem eth_Unmarshal_isOk (f : eth.Frame) (data : Bytes) (h : 14 ≤ data.length) :
    (f.Unmarshal data).isOk = true := by
  have hn : ¬ data.length < 14 := by omega
  simp [eth.Frame.Unmarshal, eth.EthernetHeaderLength, hn, slice_eq_some data 0 6 (by omega) (by omega),
    slice_eq_some data 6 12 (by omega) (by omega), getUint16_eq_some data 12 14 rfl (by omega),
    sliceFrom_eq_some data 14 (by omega), Result.ofBody, Result.isOk]

theorem ip_Unmarshal_isOk (g : ip.Header) (data : Bytes) (h : 20 ≤ data.length) :
    (g.Unmarshal data).isOk = true := by
  have hn : ¬ data.length < 20 := by omega
  simp [ip.Header.Unmarshal, ip.IPHeaderLength, hn, index_eq_some data 0 (by omega),
    index_eq_some data 1 (by omega), index_eq_some data 8 (by omega),
    index_eq_some data 9 (by omega),
    getUint16_eq_some data 2 4 rfl (by omega), getUint16_eq_some data 4 6 rfl (by omega),
    getUint16_eq_some data 6 8 rfl (by omega), getUint16_eq_some data 10 12 rfl (by omega),
    slice_eq_some data 12 16 (by omega) (by omega),
    slice_eq_some data 16 20 (by omega) (by omega), Result.ofBody, Result.isOk]

theorem udp_Unmarshal_isOk (g : udp.Packet) (data : Bytes) (h : 8 ≤ data.length) :
    (g.Unmarshal data).isOk = true := by
  have hn : ¬ data.length < 8 := by omega
  simp [udp.Packet.Unmarshal, udp.UDPHeaderLength, hn,
    getUint16_eq_some data 0 2 rfl (by omega), getUint16_eq_some data 2 4 rfl (by omega),
    getUint16_eq_some data 4 6 rfl (by omega), getUint16_eq_some data 6 8 rfl (by omega),
    sliceFrom_eq_some data 8 (by omega), Result.ofBody, Result.isOk]

theorem icmp_Unmarshal_isOk (g : icmp.Packet) (data : Bytes) (h : 8 ≤ data.length) :
    (g.Unmarshal data).isOk = true := by
  have hn : ¬ data.length < 8 := by omega
  simp [icmp.Packet.Unmarshal, hn, index_eq_some data 0 (by omega),
    index_eq_some data 1 (by omega),
    getUint16_eq_some data 2 4 rfl (by omega),
    getUint16_eq_some data 4 6 rfl (by omega), getUint16_eq_some data 6 8 rfl (by omega),
    sliceFrom_eq_some data 8 (by omega), Result.ofBody, Result.isOk]

theorem tcp_Unmarshal_isOk (g : tcp.Header) (data : Bytes) (h : 20 ≤ data.length) :
    (g.Unmarshal data).isOk = true := by
  have hn : ¬ data.length < 20 := by omega
  obtain ⟨v1, h1⟩ := getUint32_isSome data 4 8 rfl (by omega)
  obtain ⟨v2, h2⟩ := getUint32_isSome data 8 12 rfl (by omega)
  simp only [tcp.Header.Unmarshal, tcp.TCPHeaderLength, if_neg hn, index_eq_some data 12 (by omega),
    getUint16_eq_some data 0 2 rfl (by omega), getUint16_eq_some data 2 4 rfl (by omega),
    getUint16_eq_some data 14 16 rfl (by omega), getUint16_eq_some data 16 18 rfl (by omega),
    getUint16_eq_some data 18 20 rfl (by omega), h1, h2, bind, pure, Option.bind]
  split
  · rename_i hc
    rw [slice_eq_some data 20 _ (by omega) (by omega)]
    simp [Result.ofBody, Result.isOk]
  · simp [Result.ofBody, Result.isOk]

theorem isBytes_nil : isBytes [] := by
  intro b hb; simp at hb

theorem isBytes_cons (a : Nat) (l : Bytes) (ha : a < 256) (hl : isBytes l) : isBytes (a :: l) := by
  intro b hb
  rcases List.mem_cons.mp hb with h | h
  · omega
  · exact hl b h

theorem isBytes_be32 (v : Nat) : isBytes (be32 v) := by
  intro b hb
  simp [be32] at hb
  omega

theorem or_lt_256 (a b : Nat) (ha : a < 256) (hb : b < 256) : a ||| b < 256 :=
  (Nat.or_lt_two_pow ha hb : a ||| b < 2 ^ 8)

/-- Both checksum facts for an image `pre ++ be16 c ++ post` whose field holds the
checksum of the image with a zero field. -/
theorem checksum_field_ok (pre post : Bytes) (off : Nat) (hoff : pre.length = off)
    (heven : off % 2 = 0) (hpre : isBytes pre) (hpost : isBytes post)
    (hlen : (pre ++ be16 (utils.CalculateChecksum (pre ++ be16 0 ++ post)) ++ post).length
      ≤ 65535) :
    getUint16 (pre ++ be16 (utils.CalculateChecksum (pre ++ be16 0 ++ post)) ++ post)
        off (off + 2) =
      some (utils.CalculateChecksum
        (zeroField (pre ++ be16 (utils.CalculateChecksum (pre ++ be16 0 ++ post)) ++ post)
          off)) ∧
    utils.CalculateChecksum
      (pre ++ be16 (utils.CalculateChecksum (pre ++ be16 0 ++ post)) ++ post) = 0 := by
  constructor
  · rw [zeroField_field pre post _ off hoff]
    exact getUint16_append pre post off (off + 2) _ hoff rfl (CalculateChecksum_lt _)
  · apply checksum_of_embedded pre post hpre hpost (by rw [hoff]; exact heven)
    simp [be16] at hlen
    omega

theorem ip_checksum_ok (h : ip.Header) (hh : h.Valid) (data : Bytes) (h' : ip.Header)
    (hm : h.Marshal = .ok data h') (hlen : data.length ≤ 65535) :
    getUint16 data 10 12 = some (utils.CalculateChecksum (zeroField data 10)) ∧
    utils.CalculateChecksum data = 0 := by
  obtain ⟨hv, hi, htos, -, -, -, -, httl, hpr, -, hs, hsb, hd, hdb⟩ := hh
  rw [ip_Marshal_eq h hs hd] at hm
  injection hm with hdata _
  subst hdata
  have key : ∀ c, h.image c =
      ([((h.Version <<< 4) % 256) ||| h.IHL, h.TOS] ++ be16 h.TotalLength ++
        be16 h.Identification ++ be16 ((h.Flags &&& 0xE000) ||| (h.FragmentOffset &&& 0x1FFF)) ++
        [h.TTL, h.Protocol]) ++ be16 c ++ (h.SourceIP ++ h.DestinationIP) := by
    intro c; simp [ip.Header.image, List.append_assoc]
  rw [key] at hlen ⊢
  rw [key 0]
  refine checksum_field_ok _ _ 10 (by simp [be16]) (by decide) ?_ (isBytes_append _ _ hsb hdb) hlen
  refine isBytes_append _ _ (isBytes_append _ _ (isBytes_append _ _ (isBytes_append _ _ ?_
    (isBytes_be16 _)) (isBytes_be16 _)) (isBytes_be16 _)) ?_
  · exact isBytes_cons _ _ (or_lt_256 _ _ (by omega) hi) (isBytes_cons _ _ htos isBytes_nil)
  · exact isBytes_cons _ _ httl (isBytes_cons _ _ hpr isBytes_nil)

theorem tcp_Marshal_error (h : tcp.Header) (ho : 40 < h.Options.length) :
    h.Marshal = .error (.tcpHeaderTooLarge (20 + h.Options.length)) h := by
  have : 60 < 20 + h.Options.length := by omega
  simp [tcp.Header.Marshal, tcp.TCPHeaderLength, this]

theorem udp_Marshal_error (p : udp.Packet) (ho : 65527 < p.Payload.length) :
    p.Marshal = .error (.udpPacketTooLarge (8 + p.Payload.length)) p := by
  have : 65535 < 8 + p.Payload.length := by omega
  simp [udp.Packet.Marshal, udp.UDPHeaderLength, this]

theorem eth_Marshal_error (f : eth.Frame) (ho : 1500 < f.Payload.length) :
    f.Marshal = .error (.payloadTooLarge f.Payload.length) f := by
  simp [eth.Frame.Marshal, ho]

theorem tcp_checksum_ok (h : tcp.Header) (hh : h.Valid) (data : Bytes) (h' : tcp.Header)
    (hm : h.Marshal = .ok data h') (hlen : data.length ≤ 65535) :
    getUint16 data 16 18 = some (utils.CalculateChecksum (zeroField data 16)) ∧
    utils.CalculateChecksum data = 0 := by
  obtain ⟨-, -, -, -, -, -, -, -, -, hob⟩ := hh
  have ho : h.Options.length ≤ 40 := by
    by_contra hc
    rw [tcp_Marshal_error h (by omega)] at hm
    cases hm
  rw [tcp_Marshal_eq h ho] at hm
  injection hm with hdata _
  subst hdata
  have key : ∀ c, h.image c =
      (be16 h.SourcePort ++ be16 h.DestinationPort ++ be32 h.SequenceNumber ++
        be32 h.Acknowledgment ++
        [(((((tcp.TCPHeaderLength + h.Options.length) / 4) % 256) <<< 4) % 256) |||
            (h.Flags &&& 0x3F), 0] ++
        be16 h.WindowSize) ++ be16 c ++ (be16 h.UrgentPointer ++ h.Options) := by
    intro c; simp [tcp.Header.image, List.append_assoc]
  rw [key] at hlen ⊢
  rw [key 0]
  refine checksum_field_ok _ _ 16 (by simp [be16, be32]) (by decide) ?_
    (isBytes_append _ _ (isBytes_be16 _) hob) hlen
  refine isBytes_append _ _ (isBytes_append _ _ (isBytes_append _ _ (isBytes_append _ _
    (isBytes_append _ _ (isBytes_be16 _) (isBytes_be16 _)) (isBytes_be32 _)) (isBytes_be32 _)) ?_)
    (isBytes_be16 _)
  refine isBytes_cons _ _ (or_lt_256 _ _ (by omega) ?_) (isBytes_cons _ _ (by omega) isBytes_nil)
  exact Nat.lt_of_le_of_lt Nat.and_le_right (by decide)

theorem udp_checksum_ok (p : udp.Packet) (hp : p.Valid) (data : Bytes) (p' : udp.Packet)
    (hm : p.Marshal = .ok data p') (hlen : data.length ≤ 65535) :
    getUint16 data 6 8 = some (utils.CalculateChecksum (zeroField data 6)) ∧
    utils.CalculateChecksum data = 0 := by
  obtain ⟨-, -, -, -, hpb⟩ := hp
  have ho : p.Payload.length ≤ 65527 := by
    by_contra hc
    rw [udp_Marshal_error p (by omega)] at hm
    cases hm
  rw [udp_Marshal_eq p ho] at hm
  injection hm with hdata _
  subst hdata
  have key : ∀ c, p.image c =
      (be16 p.SourcePort ++ be16 p.DestinationPort ++
        be16 ((udp.UDPHeaderLength + p.Payload.length) % 65536)) ++ be16 c ++ p.Payload := by
    intro c; simp [udp.Packet.image, List.append_assoc]
  rw [key] at hlen ⊢
  rw [key 0]
  exact checksum_field_ok _ _ 6 (by simp [be16]) (by decide)
    (isBytes_append _ _ (isBytes_append _ _ (isBytes_be16 _) (isBytes_be16 _)) (isBytes_be16 _))
    hpb hlen

theorem icmp_checksum_ok (p : icmp.Packet) (hp : p.Valid) (data : Bytes) (p' : icmp.Packet)
    (hm : p.Marshal = .ok data p') (hlen : data.length ≤ 65535) :
    getUint16 data 2 4 = some (utils.CalculateChecksum (zeroField data 2)) ∧
    utils.CalculateChecksum data = 0 := by
  obtain ⟨ht, hc, -, -, -, hdb⟩ := hp
  rw [icmp_Marshal_eq p] at hm
  injection hm with hdata _
  subst hdata
  have key : ∀ c, p.image c =
      [p.Typ, p.Code] ++ be16 c ++ (be16 p.ID ++ be16 p.Sequence ++ p.Data) := by
    intro c; simp [icmp.Packet.image, List.append_assoc]
  rw [key] at hlen ⊢
  rw [key 0]
  exact checksum_field_ok _ _ 2 (by simp) (by decide)
    (isBytes_cons _ _ ht (isBytes_cons _ _ hc isBytes_nil))
    (isBytes_append _ _ (isBytes_append _ _ (isBytes_be16 _) (isBytes_be16 _)) hdb) hlen

/-! Claims -/

/-- C1. Ethernet round trip: a well-formed frame `f` with at most 1500 payload bytes is
encoded without error, and decoding the produced bytes into any frame `g` succeeds and
leaves `g` with the destination, source, type and payload of `f`. -/
theorem C1_eth_roundtrip (f g : eth.Frame) (hf : f.Valid) (hg : g.Valid)
    (hp : f.Payload.length ≤ 1500) :
    ∃ data, f.Marshal = .ok data f ∧ g.Unmarshal data = .ok () f := by
  obtain ⟨hfd, -, hfs, -, hfe, -⟩ := hf
  obtain ⟨hgd, -, hgs, -, -, -⟩ := hg
  exact ⟨f.image, eth_Marshal_eq f hfd hfs hp, eth_Unmarshal_image f g hfd hfs hfe hgd hgs⟩

theorem C1_eth_roundtrip_witness :
    (eth.NewFrame [0x00, 0x11, 0x22, 0x33, 0x44, 0x55] [0xAA, 0xBB, 0xCC, 0xDD, 0xEE, 0xFF]
        eth.EtherTypeIPv4 [72, 101, 108, 108, 111]).Valid ∧
    (eth.NewFrame [0, 0, 0, 0, 0, 0] [0, 0, 0, 0, 0, 0] 0 []).Valid ∧
    ∃ data,
      (eth.NewFrame [0x00, 0x11, 0x22, 0x33, 0x44, 0x55] [0xAA, 0xBB, 0xCC, 0xDD, 0xEE, 0xFF]
        eth.EtherTypeIPv4 [72, 101, 108, 108, 111]).Marshal = .ok data
          (eth.NewFrame [0x00, 0x11, 0x22, 0x33, 0x44, 0x55] [0xAA, 0xBB, 0xCC, 0xDD, 0xEE, 0xFF]
            eth.EtherTypeIPv4 [72, 101, 108, 108, 111]) ∧
      (eth.NewFrame [0, 0, 0, 0, 0, 0] [0, 0, 0, 0, 0, 0] 0 []).Unmarshal data = .ok ()
        (eth.NewFrame [0x00, 0x11, 0x22, 0x33, 0x44, 0x55] [0xAA, 0xBB, 0xCC, 0xDD, 0xEE, 0xFF]
          eth.EtherTypeIPv4 [72, 101, 108, 108, 111]) :=
  ⟨by decide, by decide, C1_eth_roundtrip _ _ (by decide) (by decide) (by decide)⟩

/-- C2 (code defect). Encoding the SYN header built by `NewHeader` and decoding the
bytes into a fresh header does not give the flags back: byte 12 of the image holds
`dataOffset << 4` or-ed with `Flags & 0x3F`, the two overlap in bits 4 and 5, and the
decoded header reports SYN and ACK although only SYN was set. -/
theorem C2_tcp_roundtrip_fails :
    (tcp.NewHeader 1234 80 1000 0 tcp.FlagSYN 65535).Marshal =
      .ok [4, 210, 0, 80, 0, 0, 3, 232, 0, 0, 0, 0, 82, 0, 255, 255, 164, 245, 0, 0]
        { tcp.NewHeader 1234 80 1000 0 tcp.FlagSYN 65535 with Checksum := 42229 } ∧
    tcp.Header.zero.Unmarshal
        [4, 210, 0, 80, 0, 0, 3, 232, 0, 0, 0, 0, 82, 0, 255, 255, 164, 245, 0, 0] =
      .ok () { tcp.NewHeader 1234 80 1000 0 tcp.FlagSYN 65535 with
                Checksum := 42229, Flags := 0x12 } ∧
    (tcp.NewHeader 1234 80 1000 0 tcp.FlagSYN 65535).HasFlag tcp.FlagACK = false ∧
    ({ tcp.NewHeader 1234 80 1000 0 tcp.FlagSYN 65535 with
        Checksum := 42229, Flags := 0x12 } : tcp.Header).HasFlag tcp.FlagACK = true := by
  decide

theorem ip_image_length (h : ip.Header) (c : Nat) (hs : h.SourceIP.length = 4)
    (hd : h.DestinationIP.length = 4) : (h.image c).length = 20 := by
  simp [ip.Header.image, be16, hs, hd]

/-- C3. IPv4 round trip: for a well-formed header `h` with `Version` and `IHL` at most
15, `Flags` inside the top three bits and `FragmentOffset` at most `0x1FFF`, `Marshal`
returns exactly 20 bytes and stores the checksum it computed in the header; decoding
the bytes into any header `g` gives back every field of `h` and that checksum. -/
theorem C3_ip_roundtrip (h g : ip.Header) (hh : h.Valid) (hg : g.Valid)
    (hv : h.Version ≤ 15) (hi : h.IHL ≤ 15) (hfz : h.Flags &&& 0x1FFF = 0)
    (hfo : h.FragmentOffset ≤ 0x1FFF) :
    ∃ data c, h.Marshal = .ok data { h with Checksum := c } ∧ data.length = 20 ∧
      g.Unmarshal data = .ok () { h with Checksum := c } := by
  obtain ⟨-, -, -, htl, hid, hf, -, -, -, -, hs, -, hd, -⟩ := hh
  obtain ⟨-, -, -, -, -, -, -, -, -, -, hgs, -, hgd, -⟩ := hg
  exact ⟨_, _, ip_Marshal_eq h hs hd, ip_image_length h _ hs hd,
    ip_Unmarshal_image h g _ (CalculateChecksum_lt _) hv hi htl hid hf hfz hfo hs hd hgs hgd⟩

theorem C3_ip_roundtrip_witness :
    (ip.NewHeader [10, 0, 0, 1] [10, 0, 0, 2] ip.ProtocolTCP 40).Valid ∧
    (ip.NewHeader [0, 0, 0, 0] [0, 0, 0, 0] 0 0).Valid ∧
    ∃ data c,
      (ip.NewHeader [10, 0, 0, 1] [10, 0, 0, 2] ip.ProtocolTCP 40).Marshal =
        .ok data { ip.NewHeader [10, 0, 0, 1] [10, 0, 0, 2] ip.ProtocolTCP 40 with
                    Checksum := c } ∧
      data.length = 20 ∧
      (ip.NewHeader [0, 0, 0, 0] [0, 0, 0, 0] 0 0).Unmarshal data =
        .ok () { ip.NewHeader [10, 0, 0, 1] [10, 0, 0, 2] ip.ProtocolTCP 40 with
                  Checksum := c } :=
  ⟨by decide, by decide,
    C3_ip_roundtrip _ _ (by decide) (by decide) (by decide) (by decide) (by decide) (by decide)⟩

theorem udp_image_length (p : udp.Packet) (c : Nat) :
    (p.image c).length = 8 + p.Payload.length := by
  simp [udp.Packet.image, be16]; omega

theorem udp_image_slice (p : udp.Packet) (c : Nat) :
    slice (p.image c) 4 6 = some (be16 ((udp.UDPHeaderLength + p.Payload.length) % 65536)) := by
  simp [udp.Packet.image, be16, slice]

/-- C4. UDP round trip: the packet built by `NewPacket` from 16-bit ports and a payload
of at most 65527 bytes is encoded without error into `8 + len(payload)` bytes whose
bytes `[4:6]` are the big-endian `8 + len(payload)`; decoding them into any packet `g`
gives back the ports, the length and the payload, and the checksum `Marshal` computed. -/
theorem C4_udp_roundtrip (srcPort dstPort : Nat) (payload : Bytes) (g : udp.Packet)
    (hsp : srcPort < 65536) (hdp : dstPort < 65536) (hlen : payload.length ≤ 65527) :
    ∃ data c,
      (udp.NewPacket srcPort dstPort payload).Marshal =
        .ok data { udp.NewPacket srcPort dstPort payload with Checksum := c } ∧
      data.length = 8 + payload.length ∧
      slice data 4 6 = some [(8 + payload.length) / 256, (8 + payload.length) % 256] ∧
      (udp.NewPacket srcPort dstPort payload).Length = 8 + payload.length ∧
      g.Unmarshal data = .ok () { udp.NewPacket srcPort dstPort payload with Checksum := c } := by
  refine ⟨_, _, udp_Marshal_eq _ hlen, udp_image_length _ _, ?_, ?_, ?_⟩
  · rw [udp_image_slice]
    simp only [udp.NewPacket, udp.UDPHeaderLength, be16, Nat.shiftRight_eq_div_pow]
    congr 1
    have e1 : (8 + payload.length) % 65536 = 8 + payload.length := by omega
    rw [e1]
    simp
    omega
  · simp only [udp.NewPacket, udp.UDPHeaderLength]
    omega
  · rw [udp_Unmarshal_image _ g _ (CalculateChecksum_lt _) hsp hdp]
    simp [udp.NewPacket]

theorem C4_udp_roundtrip_witness :
    ∃ data c,
      (udp.NewPacket 53 5353 [1, 2, 3]).Marshal =
        .ok data { udp.NewPacket 53 5353 [1, 2, 3] with Checksum := c } ∧
      data.length = 8 + [1, 2, 3].length ∧
      slice data 4 6 = some [(8 + [1, 2, 3].length) / 256, (8 + [1, 2, 3].length) % 256] ∧
      (udp.NewPacket 53 5353 [1, 2, 3]).Length = 8 + [1, 2, 3].length ∧
      (udp.NewPacket 0 0 []).Unmarshal data =
        .ok () { udp.NewPacket 53 5353 [1, 2, 3] with Checksum := c } :=
  C4_udp_roundtrip 53 5353 [1, 2, 3] (udp.NewPacket 0 0 []) (by decide) (by decide) (by decide)

theorem icmp_image_length (p : icmp.Packet) (c : Nat) :
    (p.image c).length = 8 + p.Data.length := by
  simp [icmp.Packet.image, be16]; omega

/-- C5. ICMP round trip: every well-formed packet `p` is encoded without error into
`8 + len(Data)` bytes, `Marshal` stores the checksum it computed in `p`, and decoding
the bytes into any packet `g` gives back type, code, identifier, sequence number and
data of `p` together with that checksum. -/
theorem C5_icmp_roundtrip (p g : icmp.Packet) (hp : p.Valid) :
    ∃ data c, p.Marshal = .ok data { p with Checksum := c } ∧
      data.length = 8 + p.Data.length ∧
      g.Unmarshal data = .ok () { p with Checksum := c } := by
  obtain ⟨-, -, -, hid, hsq, -⟩ := hp
  exact ⟨_, _, icmp_Marshal_eq p, icmp_image_length p _,
    icmp_Unmarshal_image p g _ (CalculateChecksum_lt _) hid hsq⟩

theorem C5_icmp_roundtrip_witness :
    (icmp.NewEchoRequest 7 3 [112, 105, 110, 103]).Valid ∧
    ∃ data c,
      (icmp.NewEchoRequest 7 3 [112, 105, 110, 103]).Marshal =
        .ok data { icmp.NewEchoRequest 7 3 [112, 105, 110, 103] with Checksum := c } ∧
      data.length = 8 + (icmp.NewEchoRequest 7 3 [112, 105, 110, 103]).Data.length ∧
      (icmp.NewEchoRequest 0 0 []).Unmarshal data =
        .ok () { icmp.NewEchoRequest 7 3 [112, 105, 110, 103] with Checksum := c } :=
  ⟨by decide, C5_icmp_roundtrip _ _ (by decide)⟩

/-- C6. Embedded checksums verify: whenever the IPv4, TCP, UDP or ICMP `Marshal` of a
well-formed entity returns an image of at most 65535 bytes (of even or odd length),
the checksum field of the image holds `CalculateChecksum` of the image with that field
zeroed, and `CalculateChecksum` of the whole image is 0. -/
theorem C6_embedded_checksums :
    (∀ (h : ip.Header) (data : Bytes) (h' : ip.Header), h.Valid →
      h.Marshal = .ok data h' → data.length ≤ 65535 →
        getUint16 data 10 12 = some (utils.CalculateChecksum (zeroField data 10)) ∧
        utils.CalculateChecksum data = 0) ∧
    (∀ (h : tcp.Header) (data : Bytes) (h' : tcp.Header), h.Valid →
      h.Marshal = .ok data h' → data.length ≤ 65535 →
        getUint16 data 16 18 = some (utils.CalculateChecksum (zeroField data 16)) ∧
        utils.CalculateChecksum data = 0) ∧
    (∀ (p : udp.Packet) (data : Bytes) (p' : udp.Packet), p.Valid →
      p.Marshal = .ok data p' → data.length ≤ 65535 →
        getUint16 data 6 8 = some (utils.CalculateChecksum (zeroField data 6)) ∧
        utils.CalculateChecksum data = 0) ∧
    (∀ (p : icmp.Packet) (data : Bytes) (p' : icmp.Packet), p.Valid →
      p.Marshal = .ok data p' → data.length ≤ 65535 →
        getUint16 data 2 4 = some (utils.CalculateChecksum (zeroField data 2)) ∧
        utils.CalculateChecksum data = 0) :=
  ⟨fun h data h' hh hm hl => ip_checksum_ok h hh data h' hm hl,
   fun h data h' hh hm hl => tcp_checksum_ok h hh data h' hm hl,
   fun p data p' hp hm hl => udp_checksum_ok p hp data p' hm hl,
   fun p data p' hp hm hl => icmp_checksum_ok p hp data p' hm hl⟩

theorem C6_embedded_checksums_witness :
    (icmp.NewEchoRequest 7 3 [112, 105, 110, 103, 33]).Valid ∧
    (icmp.NewEchoRequest 7 3 [112, 105, 110, 103, 33]).Marshal =
      .ok [8, 0, 248, 36, 0, 7, 0, 3, 112, 105, 110, 103, 33]
        { icmp.NewEchoRequest 7 3 [112, 105, 110, 103, 33] with Checksum := 63524 } ∧
    getUint16 [8, 0, 248, 36, 0, 7, 0, 3, 112, 105, 110, 103, 33] 2 4 =
      some (utils.CalculateChecksum
        (zeroField [8, 0, 248, 36, 0, 7, 0, 3, 112, 105, 110, 103, 33] 2)) ∧
    utils.CalculateChecksum [8, 0, 248, 36, 0, 7, 0, 3, 112, 105, 110, 103, 33] = 0 :=
  ⟨by decide, by decide,
    C6_embedded_checksums.2.2.2 (icmp.NewEchoRequest 7 3 [112, 105, 110, 103, 33])
      [8, 0, 248, 36, 0, 7, 0, 3, 112, 105, 110, 103, 33]
      { icmp.NewEchoRequest 7 3 [112, 105, 110, 103, 33] with Checksum := 63524 }
      (by decide) (by decide) (by decide)⟩

/-! The checksum of a long input -/

theorem specWordSum_replicate (n : Nat) :
    specWordSum (List.replicate (2 * n) 255) = n * 65535 := by
  induction n with
  | zero => simp [specWordSum]
  | succ k ih =>
    have e : 2 * (k + 1) = (2 * k) + 1 + 1 := by omega
    rw [e, List.replicate_succ, List.replicate_succ, specWordSum, ih]
    omega

theorem isBytes_replicate (n : Nat) : isBytes (List.replicate n 255) := by
  intro b hb
  have := List.eq_of_mem_replicate hb
  omega

theorem specChecksum_eq (data : Bytes) :
    specChecksum data = 65535 - specFoldAux (specWordSum data) (specWordSum data) := rfl

theorem wordSum_ff_131076 : specWordSum (List.replicate 131076 255) = 4295032830 :=
  specWordSum_replicate 65538

theorem foldCarry_wrapped :
    65535 - utils.foldCarry (4295032830 % 4294967296) (4295032830 % 4294967296) = 1 := by
  decide

theorem specFold_unwrapped : 65535 - specFoldAux 4295032830 4295032830 = 0 := by
  decide

theorem checksum_ff_131076 : utils.CalculateChecksum (List.replicate 131076 255) = 1 := by
  rw [CalculateChecksum_eq _ (isBytes_replicate _), wordSum_ff_131076]
  exact foldCarry_wrapped

theorem specChecksum_ff_131076 : specChecksum (List.replicate 131076 255) = 0 := by
  rw [specChecksum_eq, wordSum_ff_131076]
  exact specFold_unwrapped

/-- C7, the claim as stated fails: on 131076 bytes `0xFF` the 32-bit accumulator of
`CalculateChecksum` wraps around and the function returns 1, while the checksum defined
by the unbounded word sum is 0. -/
theorem C7_checksum_long_input_counterexample :
    isBytes (List.replicate 131076 255) ∧
    utils.CalculateChecksum (List.replicate 131076 255) = 1 ∧
    specChecksum (List.replicate 131076 255) = 0 ∧
    utils.CalculateChecksum (List.replicate 131076 255) ≠
      specChecksum (List.replicate 131076 255) :=
  ⟨isBytes_replicate _, checksum_ff_131076, specChecksum_ff_131076, by
    rw [checksum_ff_131076, specChecksum_ff_131076]; decide⟩

/-- C7 (amended). For every byte sequence of at most 131074 bytes, of even or odd
length or empty, `CalculateChecksum` returns the 16-bit complement of the big-endian
word sum (a trailing odd byte being the high byte of a last word) after the carries
above bit 15 have been folded back until the value fits in 16 bits. -/
theorem C7_checksum_definition (data : Bytes) (hb : isBytes data)
    (hlen : data.length ≤ 131074) :
    utils.CalculateChecksum data = specChecksum data := by
  have hle := specWordSum_le data hb
  have hS : specWordSum data < 4294967296 := by omega
  rw [CalculateChecksum_eq data hb, Nat.mod_eq_of_lt hS]
  unfold specChecksum specFold
  rw [(foldCarry_spec _ _ (le_refl _) hS).1]

theorem C7_checksum_definition_witness :
    isBytes [69, 0, 0, 40, 1] ∧ [69, 0, 0, 40, 1].length ≤ 131074 ∧
    utils.CalculateChecksum [69, 0, 0, 40, 1] = specChecksum [69, 0, 0, 40, 1] :=
  ⟨by decide, by decide, C7_checksum_definition _ (by decide) (by decide)⟩

theorem eth_Unmarshal_error (f : eth.Frame) (data : Bytes) (h : data.length < 14) :
    f.Unmarshal data = .error (.frameTooShort data.length) f := by
  simp [eth.Frame.Unmarshal, eth.EthernetHeaderLength, h]

theorem ip_Unmarshal_error (g : ip.Header) (data : Bytes) (h : data.length < 20) :
    g.Unmarshal data = .error (.ipHeaderTooShort data.length) g := by
  simp [ip.Header.Unmarshal, ip.IPHeaderLength, h]

theorem tcp_Unmarshal_error (g : tcp.Header) (data : Bytes) (h : data.length < 20) :
    g.Unmarshal data = .error (.tcpHeaderTooShort data.length) g := by
  simp [tcp.Header.Unmarshal, tcp.TCPHeaderLength, h]

theorem udp_Unmarshal_error (g : udp.Packet) (data : Bytes) (h : data.length < 8) :
    g.Unmarshal data = .error (.udpPacketTooShort data.length) g := by
  simp [udp.Packet.Unmarshal, udp.UDPHeaderLength, h]

theorem icmp_Unmarshal_error (g : icmp.Packet) (data : Bytes) (h : data.length < 8) :
    g.Unmarshal data = .error (.icmpPacketTooShort data.length) g := by
  simp [icmp.Packet.Unmarshal, h]

/-- A call that fails exactly under `P`, succeeds otherwise, and hands the receiver
back untouched when it fails. -/
theorem outcome_of_cases {σ α : Type} (r : Result σ α) (st : σ) (P : Prop)
    (hfail : P → ∃ e, r = .error e st) (hok : ¬ P → r.isOk = true) :
    (r.failed = true ↔ P) ∧ (r.isOk = true ↔ ¬ P) ∧ (∀ e st', r = .error e st' → st' = st) := by
  by_cases hp : P
  · obtain ⟨e, he⟩ := hfail hp
    subst he
    refine ⟨by simp [Result.failed, hp], by simp [Result.isOk, hp], ?_⟩
    intro e' st' h
    injection h with _ h2
    exact h2.symm
  · have h := hok hp
    cases r with
    | ok v s => exact ⟨by simp [Result.failed, hp], by simp [Result.isOk, hp], by intro e st' h; cases h⟩
    | error e s => simp [Result.isOk] at h
    | panic => simp [Result.isOk] at h
    | blocked s => simp [Result.isOk] at h

/-- C8. Encode size limits: on well-formed entities the Ethernet `Marshal` returns an
error exactly when the payload is longer than 1500 bytes, the TCP one exactly when
`20 + len(Options)` exceeds 60, the UDP one exactly when `8 + len(Payload)` exceeds
65535, and the IPv4 and ICMP ones never; in every other case the call returns
normally. A failing `Marshal` returns an error without bytes and leaves the entity as
it was. -/
theorem C8_encode_size_limits :
    (∀ f : eth.Frame, f.Valid →
      (f.Marshal.failed = true ↔ f.Payload.length > 1500) ∧
      (f.Marshal.isOk = true ↔ ¬ f.Payload.length > 1500) ∧
      (∀ e st, f.Marshal = .error e st → st = f)) ∧
    (∀ h : tcp.Header, h.Valid →
      (h.Marshal.failed = true ↔ 20 + h.Options.length > 60) ∧
      (h.Marshal.isOk = true ↔ ¬ 20 + h.Options.length > 60) ∧
      (∀ e st, h.Marshal = .error e st → st = h)) ∧
    (∀ p : udp.Packet, p.Valid →
      (p.Marshal.failed = true ↔ 8 + p.Payload.length > 65535) ∧
      (p.Marshal.isOk = true ↔ ¬ 8 + p.Payload.length > 65535) ∧
      (∀ e st, p.Marshal = .error e st → st = p)) ∧
    (∀ h : ip.Header, h.Valid → h.Marshal.failed = false ∧ h.Marshal.isOk = true) ∧
    (∀ p : icmp.Packet, p.Valid → p.Marshal.failed = false ∧ p.Marshal.isOk = true) := by
  refine ⟨?_, ?_, ?_, ?_, ?_⟩
  · intro f hf
    obtain ⟨hd, -, hs, -, -, -⟩ := hf
    apply outcome_of_cases
    · intro h; exact ⟨_, eth_Marshal_error f h⟩
    · intro h; rw [eth_Marshal_eq f hd hs (by omega)]; rfl
  · intro h _
    apply outcome_of_cases
    · intro hl; exact ⟨_, tcp_Marshal_error h (by omega)⟩
    · intro hl; rw [tcp_Marshal_eq h (by omega)]; rfl
  · intro p _
    apply outcome_of_cases
    · intro hl; exact ⟨_, udp_Marshal_error p (by omega)⟩
    · intro hl; rw [udp_Marshal_eq p (by omega)]; rfl
  · intro h hh
    obtain ⟨-, -, -, -, -, -, -, -, -, -, hs, -, hd, -⟩ := hh
    rw [ip_Marshal_eq h hs hd]; exact ⟨rfl, rfl⟩
  · intro p _
    rw [icmp_Marshal_eq p]; exact ⟨rfl, rfl⟩

theorem C8_encode_size_limits_witness :
    (eth.NewFrame [0, 17, 34, 51, 68, 85] [170, 187, 204, 221, 238, 255] eth.EtherTypeIPv4
        [72, 101, 108, 108, 111]).Valid ∧
    (eth.NewFrame [0, 17, 34, 51, 68, 85] [170, 187, 204, 221, 238, 255] eth.EtherTypeIPv4
        [72, 101, 108, 108, 111]).Marshal.isOk = true ∧
    (ip.NewHeader [10, 0, 0, 1] [10, 0, 0, 2] ip.ProtocolUDP 28).Marshal.failed = false :=
  ⟨by decide, (C8_encode_size_limits.1 _ (by decide)).2.1.mpr (by decide),
   (C8_encode_size_limits.2.2.2.1 _ (by decide)).1⟩

/-- C9. Decode minimum lengths: for every receiver and every input, each `Unmarshal`
returns an error exactly when the input is shorter than the minimum header size
(Ethernet 14, IPv4 20, TCP 20, UDP 8, ICMP 8); for every longer input it returns
normally, so no read ever falls outside the input; a failing `Unmarshal` leaves the
receiver as it was. -/
theorem C9_decode_minimum_lengths (data : Bytes) :
    (∀ f : eth.Frame,
      ((f.Unmarshal data).failed = true ↔ data.length < 14) ∧
      ((f.Unmarshal data).isOk = true ↔ ¬ data.length < 14) ∧
      (∀ e st, f.Unmarshal data = .error e st → st = f)) ∧
    (∀ h : ip.Header,
      ((h.Unmarshal data).failed = true ↔ data.length < 20) ∧
      ((h.Unmarshal data).isOk = true ↔ ¬ data.length < 20) ∧
      (∀ e st, h.Unmarshal data = .error e st → st = h)) ∧
    (∀ h : tcp.Header,
      ((h.Unmarshal data).failed = true ↔ data.length < 20) ∧
      ((h.Unmarshal data).isOk = true ↔ ¬ data.length < 20) ∧
      (∀ e st, h.Unmarshal data = .error e st → st = h)) ∧
    (∀ p : udp.Packet,
      ((p.Unmarshal data).failed = true ↔ data.length < 8) ∧
      ((p.Unmarshal data).isOk = true ↔ ¬ data.length < 8) ∧
      (∀ e st, p.Unmarshal data = .error e st → st = p)) ∧
    (∀ p : icmp.Packet,
      ((p.Unmarshal data).failed = true ↔ data.length < 8) ∧
      ((p.Unmarshal data).isOk = true ↔ ¬ data.length < 8) ∧
      (∀ e st, p.Unmarshal data = .error e st → st = p)) := by
  refine ⟨?_, ?_, ?_, ?_, ?_⟩
  · intro f
    exact outcome_of_cases _ _ _ (fun h => ⟨_, eth_Unmarshal_error f data h⟩)
      (fun h => eth_Unmarshal_isOk f data (by omega))
  · intro g
    exact outcome_of_cases _ _ _ (fun h => ⟨_, ip_Unmarshal_error g data h⟩)
      (fun h => ip_Unmarshal_isOk g data (by omega))
  · intro g
    exact outcome_of_cases _ _ _ (fun h => ⟨_, tcp_Unmarshal_error g data h⟩)
      (fun h => tcp_Unmarshal_isOk g data (by omega))
  · intro g
    exact outcome_of_cases _ _ _ (fun h => ⟨_, udp_Unmarshal_error g data h⟩)
      (fun h => udp_Unmarshal_isOk g data (by omega))
  · intro g
    exact outcome_of_cases _ _ _ (fun h => ⟨_, icmp_Unmarshal_error g data h⟩)
      (fun h => icmp_Unmarshal_isOk g data (by omega))

/-- C10, the claim as stated fails: `Connect` on the connection made by `NewConnection`,
which has no state-change callback installed, succeeds and calls no callback at all. -/
theorem C10_connect_no_callback_counterexample :
    (tcp.NewConnection [10, 0, 0, 1] 1234 [10, 0, 0, 2] 80).Connect 1000 =
      .ok () ({ tcp.NewConnection [10, 0, 0, 1] 1234 [10, 0, 0, 2] 80 with
                  State := tcp.StateEstablished, SendSequence := 1000,
                  ReceiveSequence := 1001 }, []) ∧
    (tcp.NewConnection [10, 0, 0, 1] 1234 [10, 0, 0, 2] 80).Connect 1000 ≠
      .ok () ({ tcp.NewConnection [10, 0, 0, 1] 1234 [10, 0, 0, 2] 80 with
                  State := tcp.StateEstablished, SendSequence := 1000,
                  ReceiveSequence := 1001 }, [tcp.Event.stateChanged tcp.StateEstablished]) := by
  decide

/-- C10 (amended). A connection made by `NewConnection` is in state CLOSED. `Connect`
fails exactly when the state is not CLOSED, and then changes no field and calls no
callback. A successful `Connect` that drew the initial sequence number `s` sets the
state to ESTABLISHED, `SendSequence` to `s` and `ReceiveSequence` to `s + 1` modulo
`2^32`, changes no other field (both buffers included), and calls the state-change
callback once, with ESTABLISHED, when one is installed, and not at all when none is. -/
theorem C10_connect (c : tcp.Connection) (s : Nat) :
    (∀ lip lp rip rp, (tcp.NewConnection lip lp rip rp).State = tcp.StateClosed) ∧
    ((c.Connect s).failed = true ↔ c.State ≠ tcp.StateClosed) ∧
    (c.State ≠ tcp.StateClosed → c.Connect s = .error .notClosed (c, [])) ∧
    (c.State = tcp.StateClosed →
      c.Connect s =
        .ok () ({ c with State := tcp.StateEstablished, SendSequence := s,
                          ReceiveSequence := (s + 1) % 4294967296 },
                if c.OnStateChanged then [tcp.Event.stateChanged tcp.StateEstablished]
                else [])) := by
  refine ⟨fun _ _ _ _ => rfl, ?_, ?_, ?_⟩
  · by_cases h : c.State = tcp.StateClosed
    · cases hcb : c.OnStateChanged <;>
        simp [tcp.Connection.Connect, tcp.Connection.handleSynAck, h, hcb, Result.failed]
    · simp [tcp.Connection.Connect, h, Result.failed]
  · intro h
    simp [tcp.Connection.Connect, h]
  · intro h
    cases hcb : c.OnStateChanged <;>
      simp [tcp.Connection.Connect, tcp.Connection.handleSynAck, tcp.NewHeader, h, hcb]

/-! The connection operations -/

theorem Send_error (c : tcp.Connection) (data : Bytes) (h : c.State ≠ tcp.StateEstablished) :
    c.Send data = .error .notEstablished (c, []) := by
  simp [tcp.Connection.Send, h]

theorem Send_ok (c : tcp.Connection) (data : Bytes) (h : c.State = tcp.StateEstablished) :
    c.Send data =
      .ok () ({ c with SendBuffer := c.SendBuffer ++ data,
                        SendSequence := (c.SendSequence + data.length) % 4294967296 }, []) := by
  simp [tcp.Connection.Send, h]

/-- C11. Send: `Send` returns an error exactly when the state is not ESTABLISHED (so on
the connection made by `NewConnection` and on any connection after `Listen`), and then
changes no field. A successful `Send`, in particular one right after a successful
`Connect`, appends the payload to `SendBuffer`, adds `len(payload)` to `SendSequence`
modulo `2^32` and changes no other field. -/
theorem C11_send (c : tcp.Connection) (data : Bytes) :
    ((c.Send data).failed = true ↔ c.State ≠ tcp.StateEstablished) ∧
    ((c.Send data).isOk = true ↔ c.State = tcp.StateEstablished) ∧
    (c.State ≠ tcp.StateEstablished → c.Send data = .error .notEstablished (c, [])) ∧
    (c.State = tcp.StateEstablished →
      c.Send data =
        .ok () ({ c with SendBuffer := c.SendBuffer ++ data,
                          SendSequence := (c.SendSequence + data.length) % 4294967296 }, [])) ∧
    (∀ lip lp rip rp, ((tcp.NewConnection lip lp rip rp).Send data).failed = true) ∧
    (∀ r, c.Listen = .ok () r → (r.1.Send data).failed = true) ∧
    (∀ s r, c.Connect s = .ok () r → (r.1.Send data).isOk = true) := by
  refine ⟨?_, ?_, Send_error c data, Send_ok c data, ?_, ?_, ?_⟩
  · by_cases h : c.State = tcp.StateEstablished
    · simp [Send_ok c data h, Result.failed, h]
    · simp [Send_error c data h, Result.failed, h]
  · by_cases h : c.State = tcp.StateEstablished
    · simp [Send_ok c data h, Result.isOk, h]
    · simp [Send_error c data h, Result.isOk, h]
  · intro lip lp rip rp
    rw [Send_error _ data (by simp [tcp.NewConnection, tcp.StateClosed, tcp.StateEstablished])]
    rfl
  · intro r hr
    simp only [tcp.Connection.Listen] at hr
    injection hr with _ hr
    subst hr
    rw [Send_error _ data (by simp [tcp.StateListen, tcp.StateEstablished])]
    rfl
  · intro s r hr
    have hst : r.1.State = tcp.StateEstablished := by
      by_cases h : c.State = tcp.StateClosed
      · cases hcb : c.OnStateChanged <;>
          simp [tcp.Connection.Connect, tcp.Connection.handleSynAck, h, hcb] at hr <;>
          subst hr <;> rfl
      · simp [tcp.Connection.Connect, h] at hr
    rw [Send_ok _ data hst]
    rfl

/-- C12, the claim as stated fails: `Receive` on the connection made by `NewConnection`,
which has no data-received callback installed, succeeds and calls no callback. -/
theorem C12_receive_no_callback_counterexample :
    (tcp.NewConnection [10, 0, 0, 1] 1234 [10, 0, 0, 2] 80).Receive [1, 2, 3] =
      .ok () ({ tcp.NewConnection [10, 0, 0, 1] 1234 [10, 0, 0, 2] 80 with
                  ReceiveBuffer := [1, 2, 3], ReceiveSequence := 3 }, []) ∧
    (tcp.NewConnection [10, 0, 0, 1] 1234 [10, 0, 0, 2] 80).Receive [1, 2, 3] ≠
      .ok () ({ tcp.NewConnection [10, 0, 0, 1] 1234 [10, 0, 0, 2] 80 with
                  ReceiveBuffer := [1, 2, 3], ReceiveSequence := 3 },
              [tcp.Event.dataReceived [1, 2, 3]]) := by
  decide

/-- C12 (amended). Receive: in every state and for every payload, `Receive` on a
connection whose data-received callback is nil or returns without calling a method of
the connection succeeds, appends the payload to `ReceiveBuffer`, adds `len(payload)` to
`ReceiveSequence` modulo `2^32`, changes no other field (so `State`, `SendSequence` and
`SendBuffer` stay), and calls the callback once, with exactly that payload, when one is
installed, and not at all when none is. `Receive` returns exactly on these connections:
when the installed callback calls a method of the connection, the buffer and the
sequence number are updated the same way, the callback is called once with the payload,
and the call never returns. -/
theorem C12_receive (c : tcp.Connection) (data : Bytes) :
    ((c.Receive data).isOk = true ↔ c.OnDataReceived ≠ some tcp.Callback.reenters) ∧
    (c.Receive data).failed = false ∧
    c.Receive data =
      (match c.OnDataReceived with
        | none =>
          .ok () ({ c with ReceiveBuffer := c.ReceiveBuffer ++ data,
                            ReceiveSequence :=
                              (c.ReceiveSequence + data.length) % 4294967296 }, [])
        | some tcp.Callback.returns =>
          .ok () ({ c with ReceiveBuffer := c.ReceiveBuffer ++ data,
                            ReceiveSequence :=
                              (c.ReceiveSequence + data.length) % 4294967296 },
                  [tcp.Event.dataReceived data])
        | some tcp.Callback.reenters =>
          .blocked ({ c with ReceiveBuffer := c.ReceiveBuffer ++ data,
                              ReceiveSequence :=
                                (c.ReceiveSequence + data.length) % 4294967296 },
                    [tcp.Event.dataReceived data])) := by
  rcases hcb : c.OnDataReceived with _ | _ | _ <;>
    simp [tcp.Connection.Receive, hcb, Result.isOk, Result.failed]

/-- C13. Close end state: `Close` always succeeds. On a connection already CLOSED it
changes nothing; otherwise the connection afterwards is in state CLOSED (not
FIN_WAIT_1, FIN_WAIT_2 or TIME_WAIT) with every other field, the sequence numbers,
windows and both buffers among them, as before. A second `Close` succeeds again and
leaves the connection as the first one left it. -/
theorem C13_close_end_state (c : tcp.Connection) :
    ∃ c' tr, c.Close = .ok () (c', tr) ∧
      (c.State = tcp.StateClosed → c' = c) ∧
      c' = { c with State := tcp.StateClosed } ∧
      c'.State ≠ tcp.StateFinWait1 ∧ c'.State ≠ tcp.StateFinWait2 ∧
      c'.State ≠ tcp.StateTimeWait ∧
      ∃ tr2, c'.Close = .ok () (c', tr2) := by
  by_cases h : c.State = tcp.StateClosed
  · refine ⟨c, [], by simp [tcp.Connection.Close, h], fun _ => rfl, ?_, ?_, ?_, ?_,
      ⟨[], by simp [tcp.Connection.Close, h]⟩⟩
    · cases c; simp_all
    · rw [h]; decide
    · rw [h]; decide
    · rw [h]; decide
  · refine ⟨{ c with State := tcp.StateClosed }, [], by simp [tcp.Connection.Close, h],
      fun h2 => absurd h2 h, rfl, ?_, ?_, ?_, ⟨[], by simp [tcp.Connection.Close]⟩⟩
    · show tcp.StateClosed ≠ tcp.StateFinWait1
      decide
    · show tcp.StateClosed ≠ tcp.StateFinWait2
      decide
    · show tcp.StateClosed ≠ tcp.StateTimeWait
      decide

/-- C14 (code defect). `Close` on an ESTABLISHED connection that has a state-change
callback installed goes through FIN_WAIT_1 to CLOSED and calls no callback: the event
trace is empty and holds no state-change event for FIN_WAIT_1. -/
theorem C14_close_fires_no_callback :
    ({ tcp.NewConnection [10, 0, 0, 1] 1234 [10, 0, 0, 2] 80 with
        State := tcp.StateEstablished, OnStateChanged := true } : tcp.Connection).Close =
      .ok () ({ tcp.NewConnection [10, 0, 0, 1] 1234 [10, 0, 0, 2] 80 with
                  State := tcp.StateClosed, OnStateChanged := true }, []) := by
  decide

/-- C15 (code defect). `Listen` on a connection that has a state-change callback
installed sets the state to LISTEN, changes no other field, and calls no callback. -/
theorem C15_listen_fires_no_callback :
    ({ tcp.NewConnection [10, 0, 0, 1] 8080 [0, 0, 0, 0] 0 with
        OnStateChanged := true } : tcp.Connection).Listen =
      .ok () ({ tcp.NewConnection [10, 0, 0, 1] 8080 [0, 0, 0, 0] 0 with
                  State := tcp.StateListen, OnStateChanged := true }, []) := by
  decide

/-- C16 (code defect). For the header built by `NewHeader` with the URG flag and no
options, `Marshal` returns 20 bytes, yet `Unmarshal` of them reports `DataOffset = 7`
and not `20 / 4 = 5`: the flag bits 4 and 5 are or-ed into the data-offset nibble of
byte 12. -/
theorem C16_tcp_data_offset_corrupted :
    (tcp.NewHeader 1234 80 1000 0 tcp.FlagURG 65535).Marshal =
      .ok [4, 210, 0, 80, 0, 0, 3, 232, 0, 0, 0, 0, 112, 0, 255, 255, 134, 245, 0, 0]
        { tcp.NewHeader 1234 80 1000 0 tcp.FlagURG 65535 with Checksum := 34549 } ∧
    [4, 210, 0, 80, 0, 0, 3, 232, 0, 0, 0, 0, 112, 0, 255, 255, 134, 245, 0, 0].length = 20 ∧
    tcp.Header.zero.Unmarshal
        [4, 210, 0, 80, 0, 0, 3, 232, 0, 0, 0, 0, 112, 0, 255, 255, 134, 245, 0, 0] =
      .ok () { tcp.NewHeader 1234 80 1000 0 tcp.FlagURG 65535 with
                Checksum := 34549, DataOffset := 7, Flags := 0x30 } := by
  decide

/-! Decoding and layout -/

/-- C17. TCP option decoding: for every receiver `g` and every input of at least 20
bytes `Unmarshal` succeeds and reports as `DataOffset` the value `d = data[12] >> 4`.
When `4 * d > 20` and the input has at least `4 * d` bytes, `Options` becomes the
input bytes `[20, 4 * d)`; in every other case `Options` keeps the value it had in `g`. -/
theorem C17_tcp_option_decoding (g : tcp.Header) (data : Bytes) (hl : 20 ≤ data.length) :
    ∃ g', g.Unmarshal data = .ok () g' ∧
      g'.DataOffset = data.getD 12 0 >>> 4 ∧
      ((20 < 4 * (data.getD 12 0 >>> 4) ∧ 4 * (data.getD 12 0 >>> 4) ≤ data.length) →
        g'.Options = (data.drop 20).take (4 * (data.getD 12 0 >>> 4) - 20)) ∧
      (¬ (20 < 4 * (data.getD 12 0 >>> 4) ∧ 4 * (data.getD 12 0 >>> 4) ≤ data.length) →
        g'.Options = g.Options) := by
  have hn : ¬ data.length < 20 := by omega
  obtain ⟨v1, h1⟩ := getUint32_isSome data 4 8 rfl (by omega)
  obtain ⟨v2, h2⟩ := getUint32_isSome data 8 12 rfl (by omega)
  simp only [tcp.Header.Unmarshal, tcp.TCPHeaderLength, if_neg hn, index_eq_some data 12 (by omega),
    getUint16_eq_some data 0 2 rfl (by omega), getUint16_eq_some data 2 4 rfl (by omega),
    getUint16_eq_some data 14 16 rfl (by omega), getUint16_eq_some data 16 18 rfl (by omega),
    getUint16_eq_some data 18 20 rfl (by omega), h1, h2, bind, pure, Option.bind]
  generalize data.getD 12 0 >>> 4 = d
  split
  · rename_i hc
    rw [slice_eq_some data 20 _ (by omega) (by omega)]
    refine ⟨_, rfl, rfl, ?_, ?_⟩
    · intro _
      have e : ((d : Int) * 4 - ((20 : Nat) : Int)).toNat = 4 * d - 20 := by omega
      rw [e, Nat.add_sub_cancel_left]
      exact copyBytes_same_length _ _ (by simp [make]; omega)
    · intro hneg
      exact absurd ⟨by omega, by omega⟩ hneg
  · rename_i hc
    refine ⟨_, rfl, rfl, ?_, ?_⟩
    · intro hpos
      exact absurd ⟨by omega, by omega⟩ hc
    · intro _
      rfl

theorem C17_tcp_option_decoding_witness :
    20 ≤ [4, 210, 0, 80, 0, 0, 3, 232, 0, 0, 0, 0, 96, 0, 255, 255, 0, 0, 0, 0, 2, 4, 5,
          180].length ∧
    ∃ g', tcp.Header.zero.Unmarshal
        [4, 210, 0, 80, 0, 0, 3, 232, 0, 0, 0, 0, 96, 0, 255, 255, 0, 0, 0, 0, 2, 4, 5, 180] =
          .ok () g' ∧
      g'.DataOffset = 6 ∧ g'.Options = [2, 4, 5, 180] := by
  refine ⟨by decide, ?_⟩
  obtain ⟨g', h1, h2, h3, _⟩ := C17_tcp_option_decoding tcp.Header.zero
    [4, 210, 0, 80, 0, 0, 3, 232, 0, 0, 0, 0, 96, 0, 255, 255, 0, 0, 0, 0, 2, 4, 5, 180]
    (by decide)
  exact ⟨g', h1, h2, h3 (by decide)⟩

theorem be16_eq_div_mod (v : Nat) (hv : v < 65536) : be16 v = [v / 256, v % 256] := by
  simp only [be16, Nat.shiftRight_eq_div_pow]
  congr 1
  omega

theorem eth_image_length (f : eth.Frame) (hd : f.DestinationMAC.length = 6)
    (hs : f.SourceMAC.length = 6) : f.image.length = 14 + f.Payload.length := by
  simp [eth.Frame.image, be16, hd, hs]; omega

/-- C18. Ethernet encoding layout: for a well-formed frame with at most 1500 payload
bytes `Marshal` returns `14 + len(Payload)` bytes; bytes `[0:6]` are the destination
address, bytes `[6:12]` the source address, bytes `[12:14]` the type, high byte first
(`0x08, 0x00` for IPv4), and bytes `[14:]` the payload. -/
theorem C18_eth_encoding_layout (f : eth.Frame) (hf : f.Valid)
    (hp : f.Payload.length ≤ 1500) :
    ∃ data, f.Marshal = .ok data f ∧
      data.length = 14 + f.Payload.length ∧
      slice data 0 6 = some f.DestinationMAC ∧
      slice data 6 12 = some f.SourceMAC ∧
      slice data 12 14 = some [f.EtherType / 256, f.EtherType % 256] ∧
      (f.EtherType = eth.EtherTypeIPv4 → slice data 12 14 = some [0x08, 0x00]) ∧
      sliceFrom data 14 = some f.Payload := by
  obtain ⟨hd, -, hs, -, he, -⟩ := hf
  have h1 : slice f.image 12 14 = some [f.EtherType / 256, f.EtherType % 256] := by
    rw [← be16_eq_div_mod _ he]
    exact slice_append_mid (f.DestinationMAC ++ f.SourceMAC) (be16 f.EtherType) f.Payload 12 14
      (by simp [hd, hs]) (by simp [be16])
  refine ⟨f.image, eth_Marshal_eq f hd hs hp, eth_image_length f hd hs, ?_, ?_, h1, ?_, ?_⟩
  · have := slice_append_mid [] f.DestinationMAC (f.SourceMAC ++ be16 f.EtherType ++ f.Payload)
      0 6 rfl (by simp [hd])
    simpa [eth.Frame.image, List.append_assoc] using this
  · have := slice_append_mid f.DestinationMAC f.SourceMAC (be16 f.EtherType ++ f.Payload)
      6 12 hd (by simp [hs])
    simpa [eth.Frame.image, List.append_assoc] using this
  · intro h4
    rw [h1, h4]
    rfl
  · exact sliceFrom_append (f.DestinationMAC ++ f.SourceMAC ++ be16 f.EtherType) f.Payload 14
      (by simp [hd, hs, be16])

theorem C18_eth_encoding_layout_witness :
    (eth.NewFrame [0x00, 0x11, 0x22, 0x33, 0x44, 0x55] [0xAA, 0xBB, 0xCC, 0xDD, 0xEE, 0xFF]
        eth.EtherTypeIPv4 [72, 101, 108, 108, 111]).Valid ∧
    ∃ data,
      (eth.NewFrame [0x00, 0x11, 0x22, 0x33, 0x44, 0x55] [0xAA, 0xBB, 0xCC, 0xDD, 0xEE, 0xFF]
        eth.EtherTypeIPv4 [72, 101, 108, 108, 111]).Marshal = .ok data
          (eth.NewFrame [0x00, 0x11, 0x22, 0x33, 0x44, 0x55] [0xAA, 0xBB, 0xCC, 0xDD, 0xEE, 0xFF]
            eth.EtherTypeIPv4 [72, 101, 108, 108, 111]) ∧
      data.length = 14 + 5 ∧
      slice data 0 6 = some [0xAA, 0xBB, 0xCC, 0xDD, 0xEE, 0xFF] ∧
      slice data 6 12 = some [0x00, 0x11, 0x22, 0x33, 0x44, 0x55] ∧
      slice data 12 14 = some [eth.EtherTypeIPv4 / 256, eth.EtherTypeIPv4 % 256] ∧
      (eth.EtherTypeIPv4 = eth.EtherTypeIPv4 → slice data 12 14 = some [0x08, 0x00]) ∧
      sliceFrom data 14 = some [72, 101, 108, 108, 111] :=
  ⟨by decide, C18_eth_encoding_layout _ (by decide) (by decide)⟩

/-- C19. Ethernet decoding: for a receiver `g` and every input of at least 14 bytes, of
whatever length, `Unmarshal` succeeds and leaves `g` with the destination address
bytes `[0:6]`, the source address bytes `[6:12]`, the type `256 * data[12] + data[13]`
and as payload all bytes from index 14 on, none when the input has exactly 14 bytes. -/
theorem C19_eth_decoding (g : eth.Frame) (data : Bytes) (hg : g.Valid) (hb : isBytes data)
    (hl : 14 ≤ data.length) :
    g.Unmarshal data =
      .ok () { DestinationMAC := data.take 6, SourceMAC := (data.drop 6).take 6,
               EtherType := 256 * data.getD 12 0 + data.getD 13 0,
               Payload := data.drop 14 } ∧
    (data.length = 14 → data.drop 14 = []) := by
  obtain ⟨hd, -, hs, -, -, -⟩ := hg
  have hn : ¬ data.length < 14 := by omega
  have h12 : data.getD 12 0 < 256 := by
    have : data.getD 12 0 ∈ data := by
      rw [List.getD_eq_getElem _ _ (by omega)]; exact List.getElem_mem _
    exact hb _ this
  have h13 : data.getD 13 0 < 256 := by
    have : data.getD 13 0 ∈ data := by
      rw [List.getD_eq_getElem _ _ (by omega)]; exact List.getElem_mem _
    exact hb _ this
  have c1 : copyBytes g.DestinationMAC (List.take 6 data) = List.take 6 data :=
    copyBytes_same_length _ _ (by simp [hd]; omega)
  have c2 : copyBytes g.SourceMAC (List.take 6 (List.drop 6 data)) = List.take 6 (List.drop 6 data) :=
    copyBytes_same_length _ _ (by simp [hs]; omega)
  have c3 : copyBytes (make (data.length - 14)) (List.drop 14 data) = List.drop 14 data :=
    copyBytes_same_length _ _ (by simp [make])
  constructor
  · simp [eth.Frame.Unmarshal, eth.EthernetHeaderLength, hn,
      slice_eq_some data 0 6 (by omega) (by omega),
      slice_eq_some data 6 12 (by omega) (by omega), getUint16_eq_some data 12 14 rfl (by omega),
      sliceFrom_eq_some data 14 (by omega), Result.ofBody, c1, c2, c3]
    simpa using word16_eq _ _ h12 h13
  · intro h
    exact List.drop_eq_nil_of_le (by omega)

theorem C19_eth_decoding_witness :
    (eth.NewFrame [0, 0, 0, 0, 0, 0] [0, 0, 0, 0, 0, 0] 0 []).Valid ∧
    isBytes [170, 187, 204, 221, 238, 255, 0, 17, 34, 51, 68, 85, 8, 0, 72, 105] ∧
    (eth.NewFrame [0, 0, 0, 0, 0, 0] [0, 0, 0, 0, 0, 0] 0 []).Unmarshal
        [170, 187, 204, 221, 238, 255, 0, 17, 34, 51, 68, 85, 8, 0, 72, 105] =
      .ok () { DestinationMAC :=
                 [170, 187, 204, 221, 238, 255, 0, 17, 34, 51, 68, 85, 8, 0, 72, 105].take 6,
               SourceMAC :=
                 ([170, 187, 204, 221, 238, 255, 0, 17, 34, 51, 68, 85, 8, 0, 72, 105].drop 6).take 6,
               EtherType :=
                 256 * [170, 187, 204, 221, 238, 255, 0, 17, 34, 51, 68, 85, 8, 0, 72, 105].getD 12 0
                   + [170, 187, 204, 221, 238, 255, 0, 17, 34, 51, 68, 85, 8, 0, 72, 105].getD 13 0,
               Payload :=
                 [170, 187, 204, 221, 238, 255, 0, 17, 34, 51, 68, 85, 8, 0, 72, 105].drop 14 } :=
  ⟨by decide, by decide, (C19_eth_decoding _ _ (by decide) (by decide) (by decide)).1⟩

/-- C20 (code defect). For the broadcast frame of the repository test, destination
`FF:FF:FF:FF:FF:FF`, `IsBroadcast` is true and `IsMulticast` is true as well, since the
low bit of the first destination byte is set. -/
theorem C20_broadcast_is_multicast :
    (eth.NewFrame [0x00, 0x11, 0x22, 0x33, 0x44, 0x55] [0xFF, 0xFF, 0xFF, 0xFF, 0xFF, 0xFF]
        eth.EtherTypeIPv4 [116, 101, 115, 116]).IsBroadcast = true ∧
    (eth.NewFrame [0x00, 0x11, 0x22, 0x33, 0x44, 0x55] [0xFF, 0xFF, 0xFF, 0xFF, 0xFF, 0xFF]
        eth.EtherTypeIPv4 [116, 101, 115, 116]).IsMulticast = true := by
  decide

/-! The transport checksum -/

theorem be16_mod (v : Nat) : be16 (v % 65536) = [v / 256 % 256, v % 256] := by
  simp only [be16, Nat.shiftRight_eq_div_pow]
  have e1 : v % 65536 / 2 ^ 8 % 256 = v / 256 % 256 := by omega
  have e2 : v % 65536 % 256 = v % 256 := by omega
  rw [e1, e2]

/-- C21. Transport (pseudo-header) checksum: for any header bytes, any payload and
4-byte source and destination addresses, `CalculateTCPChecksum` returns (without a
panic) `CalculateChecksum` of the source address, the destination address, a zero byte,
the protocol number 6, the two big-endian bytes of `len(header) + len(payload)` as a
16-bit value, then the header, then the payload. -/
theorem C21_tcp_pseudo_header_checksum (tcpHeader payload srcIP dstIP : Bytes)
    (hs : srcIP.length = 4) (hd : dstIP.length = 4) :
    utils.CalculateTCPChecksum tcpHeader payload srcIP dstIP =
      some (utils.CalculateChecksum
        (srcIP ++ dstIP ++ [0] ++ [6]
          ++ [(tcpHeader.length + payload.length) / 256 % 256,
              (tcpHeader.length + payload.length) % 256]
          ++ tcpHeader ++ payload)) := by
  obtain ⟨s0, s1, s2, s3, rfl⟩ := list_length_four srcIP hs
  obtain ⟨d0, d1, d2, d3, rfl⟩ := list_length_four dstIP hd
  simp [utils.CalculateTCPChecksum, make, setIndex, putUint16, copyInto, slice, copyBytes,
    be16_mod, List.replicate_succ]

theorem C21_tcp_pseudo_header_checksum_witness :
    utils.CalculateTCPChecksum [1, 2, 3] [4, 5] [10, 0, 0, 1] [10, 0, 0, 2] =
      some (utils.CalculateChecksum
        ([10, 0, 0, 1] ++ [10, 0, 0, 2] ++ [0] ++ [6] ++ [0, 5] ++ [1, 2, 3] ++ [4, 5])) :=
  C21_tcp_pseudo_header_checksum [1, 2, 3] [4, 5] [10, 0, 0, 1] [10, 0, 0, 2] rfl rfl

/-! Reordering the words -/

/-- On an accumulator below `2^32` the word loop returns the accumulator plus the sum of
the aligned words, modulo `2^32`. -/
theorem sumWords_toWords : ∀ (data : Bytes) (acc : Nat), acc < 4294967296 →
    utils.sumWords data acc =
      (acc + ((toWords data).map (fun w => word16 w.1 w.2)).sum) % 4294967296
  | [], acc, h => by simp [utils.sumWords, toWords]; omega
  | [_], acc, h => by simp [utils.sumWords, toWords]; omega
  | b0 :: b1 :: rest, acc, h => by
    have ih := sumWords_toWords rest ((acc + word16 b0 b1) % 4294967296) (by omega)
    simp only [utils.sumWords, toWords, List.map_cons, List.sum_cons]
    rw [ih]
    omega

/-- C22. The checksum is invariant under word reordering: when two even-length byte
sequences have the same aligned 16-bit words up to a permutation, `CalculateChecksum`
returns the same value on both. No bound on the length is needed, the `uint32`
accumulator wraps the same way in any order. -/
theorem C22_checksum_word_permutation (data data' : Bytes)
    (he : data.length % 2 = 0) (he' : data'.length % 2 = 0)
    (hp : (toWords data).Perm (toWords data')) :
    utils.CalculateChecksum data' = utils.CalculateChecksum data := by
  have hs : ((toWords data).map (fun w => word16 w.1 w.2)).sum =
      ((toWords data').map (fun w => word16 w.1 w.2)).sum := (hp.map _).sum_eq
  have h1 := sumWords_toWords data 0 (by omega)
  have h2 := sumWords_toWords data' 0 (by omega)
  have e : utils.sumWords data' 0 = utils.sumWords data 0 := by rw [h1, h2, hs]
  have n1 : ¬ data.length % 2 = 1 := by omega
  have n2 : ¬ data'.length % 2 = 1 := by omega
  simp only [utils.CalculateChecksum, n1, n2, if_false, e]

theorem C22_checksum_word_permutation_witness :
    utils.CalculateChecksum [0x56, 0x78, 0x9a, 0xbc, 0x12, 0x34] =
      utils.CalculateChecksum [0x12, 0x34, 0x56, 0x78, 0x9a, 0xbc] :=
  C22_checksum_word_permutation [0x12, 0x34, 0x56, 0x78, 0x9a, 0xbc]
    [0x56, 0x78, 0x9a, 0xbc, 0x12, 0x34] (by decide) (by decide) (by decide)

/-! The ICMP reply -/

/-- C23. ICMP reply construction: for every packet `p`, `CreateReply` returns a packet
with `Type` 0 (Echo Reply), `Code` 0 and the `ID`, `Sequence` and `Data` of `p`, on
which `IsEchoReply` is true and `IsEchoRequest` is false; the packet built by
`NewEchoRequest` carries the given `id`, `sequence` and `data` and `IsEchoRequest` is
true on it. `CreateReply` only reads its receiver, which is why it is a function of
`p` with no receiver among its results. -/
theorem C23_icmp_create_reply (p : icmp.Packet) (id sequence : Nat) (data : Bytes) :
    p.CreateReply.Typ = 0 ∧ p.CreateReply.Typ = icmp.TypeEchoReply ∧
    p.CreateReply.Code = 0 ∧ p.CreateReply.ID = p.ID ∧
    p.CreateReply.Sequence = p.Sequence ∧ p.CreateReply.Data = p.Data ∧
    p.CreateReply.IsEchoReply = true ∧ p.CreateReply.IsEchoRequest = false ∧
    (icmp.NewEchoRequest id sequence data).IsEchoRequest = true ∧
    (icmp.NewEchoRequest id sequence data).CreateReply =
      { Typ := 0, Code := 0, Checksum := 0, ID := id, Sequence := sequence, Data := data } := by
  refine ⟨rfl, rfl, rfl, rfl, rfl, rfl, ?_, ?_, ?_, rfl⟩ <;>
    simp [icmp.Packet.CreateReply, icmp.Packet.IsEchoReply, icmp.Packet.IsEchoRequest,
      icmp.NewEchoRequest, icmp.TypeEchoReply, icmp.TypeEchoRequest]

/-! The accumulator bound -/

theorem foldCarry_small (fuel s : Nat) (h : s ≤ 65535) : utils.foldCarry fuel s = s := by
  cases fuel with
  | zero => rfl
  | succ n =>
    have : ¬ s > 0xffff := by omega
    simp [utils.foldCarry, this]

/-- Two rounds of the carry loop bring any `uint32` value to at most `0xffff`, and more
rounds change nothing. -/
theorem foldCarry_two (s : Nat) (hs : s < 4294967296) (fuel : Nat) :
    utils.foldCarry 2 s ≤ 65535 ∧ utils.foldCarry (fuel + 2) s = utils.foldCarry 2 s := by
  have e1 : s &&& 0xffff = s % 65536 := Nat.and_pow_two_sub_one_eq_mod s 16
  have e2 : s >>> 16 = s / 65536 := by simp [Nat.shiftRight_eq_div_pow]
  by_cases h0 : s > 0xffff
  · have hs1 : (s % 65536 + s / 65536) % 4294967296 = s % 65536 + s / 65536 := by omega
    generalize hx : s % 65536 + s / 65536 = x at hs1
    have hxb : x ≤ 131070 := by omega
    have f1 : x &&& 0xffff = x % 65536 := Nat.and_pow_two_sub_one_eq_mod x 16
    have f2 : x >>> 16 = x / 65536 := by simp [Nat.shiftRight_eq_div_pow]
    by_cases h1 : x > 0xffff
    · have hy : (x % 65536 + x / 65536) % 4294967296 ≤ 65535 := by omega
      simp only [utils.foldCarry, h0, h1, if_true, e1, e2, hx, hs1, f1, f2]
      rw [foldCarry_small fuel _ hy]
      exact ⟨hy, rfl⟩
    · simp only [utils.foldCarry, h0, h1, if_true, if_false, e1, e2, hx, hs1]
      exact ⟨by omega, trivial⟩
  · simp only [utils.foldCarry, h0, if_false]
    exact ⟨by omega, trivial⟩

theorem foldCarry_self_two (s : Nat) (hs : s < 4294967296) :
    utils.foldCarry s s = utils.foldCarry 2 s := by
  by_cases h : 2 ≤ s
  · obtain ⟨k, rfl⟩ : ∃ k, s = k + 2 := ⟨s - 2, by omega⟩
    exact (foldCarry_two (k + 2) hs k).2
  · rw [foldCarry_small s s (by omega), foldCarry_small 2 s (by omega)]

theorem isBytes_take (data : Bytes) (n : Nat) (h : isBytes data) : isBytes (data.take n) :=
  fun b hb => h b (List.mem_of_mem_take hb)

/-- While the input has at most 131074 bytes the accumulator of the word loop is the
unbounded sum of the words read so far. -/
theorem sumWords_running (data : Bytes) (hb : isBytes data) (hl : data.length ≤ 131074)
    (k : Nat) (hk : 2 * k ≤ data.length) :
    utils.sumWords (data.take (2 * k)) 0 = specWordSum (data.take (2 * k)) := by
  have hlen : (data.take (2 * k)).length = 2 * k := by simp; omega
  have h1 := sumWords_oddTail (data.take (2 * k)) 0 (isBytes_take _ _ hb) (by omega)
  have h2 := specWordSum_le (data.take (2 * k)) (isBytes_take _ _ hb)
  rw [hlen] at h1 h2
  have n1 : ¬ (2 * k) % 2 = 1 := by omega
  simp only [n1, if_false, Nat.zero_add] at h1
  rw [h1]
  have : (2 * k + 1) / 2 = k := by omega
  rw [this] at h2
  have : 65535 * k ≤ 65535 * 65537 := Nat.mul_le_mul_left _ (by omega)
  omega

theorem specWordSum_bound (data : Bytes) (hb : isBytes data) (hl : data.length ≤ 131074) :
    specWordSum data ≤ 4294967295 := by
  have h2 := specWordSum_le data hb
  have : 65535 * ((data.length + 1) / 2) ≤ 65535 * 65537 := Nat.mul_le_mul_left _ (by omega)
  omega

theorem CalculateChecksum_spec (data : Bytes) (hb : isBytes data)
    (hl : data.length ≤ 131074) : utils.CalculateChecksum data = specChecksum data := by
  have hS := specWordSum_bound data hb hl
  have hm : specWordSum data % 4294967296 = specWordSum data := by omega
  rw [CalculateChecksum_eq data hb, hm,
    (foldCarry_spec (specWordSum data) (specWordSum data) (le_refl _) (by omega)).1]
  rfl

theorem tcp_Marshal_length (h : tcp.Header) (out : Bytes) (h' : tcp.Header)
    (hm : h.Marshal = .ok out h') : out.length ≤ 60 := by
  have ho : h.Options.length ≤ 40 := by
    by_contra hc
    rw [tcp_Marshal_error h (by omega)] at hm
    cases hm
  rw [tcp_Marshal_eq h ho] at hm
  injection hm with hdata _
  subst hdata
  simp [tcp.Header.image, be16, be32]
  omega

theorem udp_Marshal_length (p : udp.Packet) (out : Bytes) (p' : udp.Packet)
    (hm : p.Marshal = .ok out p') : out.length ≤ 65535 := by
  have ho : p.Payload.length ≤ 65527 := by
    by_contra hc
    rw [udp_Marshal_error p (by omega)] at hm
    cases hm
  rw [udp_Marshal_eq p ho] at hm
  injection hm with hdata _
  subst hdata
  rw [udp_image_length]
  omega

theorem eth_Marshal_length (f : eth.Frame) (hf : f.Valid) (out : Bytes) (f' : eth.Frame)
    (hm : f.Marshal = .ok out f') : out.length ≤ 1514 := by
  obtain ⟨hd, -, hs, -, -, -⟩ := hf
  have ho : f.Payload.length ≤ 1500 := by
    by_contra hc
    rw [eth_Marshal_error f (by omega)] at hm
    cases hm
  rw [eth_Marshal_eq f hd hs ho] at hm
  injection hm with hdata _
  subst hdata
  rw [eth_image_length f hd hs]
  omega

/-- C24. Checksum accumulator bound: on an input of at most 131074 bytes the accumulator
of the word loop equals, after every iteration, the unbounded sum of the words read so
far, and the complete sum (odd trailing byte included) is at most `2^32 - 1`; so
`CalculateChecksum` returns the Internet checksum computed with unbounded integers. The
carry loop reaches its exit test after at most two rounds, with a value of at most
`0xffff`, and the result fits in 16 bits. The size-limited encoders stay inside the
bound: a successful TCP `Marshal` returns at most 60 bytes, a successful UDP `Marshal`
at most 65535, a successful Ethernet `Marshal` at most 1514. -/
theorem C24_checksum_accumulator_bound (data : Bytes) (hb : isBytes data)
    (hl : data.length ≤ 131074) :
    (∀ k, 2 * k ≤ data.length →
      utils.sumWords (data.take (2 * k)) 0 = specWordSum (data.take (2 * k))) ∧
    specWordSum data ≤ 4294967295 ∧
    utils.CalculateChecksum data = specChecksum data ∧
    utils.foldCarry (specWordSum data) (specWordSum data) =
      utils.foldCarry 2 (specWordSum data) ∧
    utils.foldCarry 2 (specWordSum data) ≤ 65535 ∧
    utils.CalculateChecksum data < 65536 ∧
    (∀ (h : tcp.Header) (out : Bytes) (h' : tcp.Header),
      h.Marshal = .ok out h' → out.length ≤ 131074) ∧
    (∀ (p : udp.Packet) (out : Bytes) (p' : udp.Packet),
      p.Marshal = .ok out p' → out.length ≤ 131074) ∧
    (∀ (f : eth.Frame) (out : Bytes) (f' : eth.Frame),
      f.Valid → f.Marshal = .ok out f' → out.length ≤ 131074) := by
  have hS := specWordSum_bound data hb hl
  refine ⟨sumWords_running data hb hl, hS, CalculateChecksum_spec data hb hl,
    foldCarry_self_two _ (by omega), (foldCarry_two _ (by omega) 0).1,
    CalculateChecksum_lt data, ?_, ?_, ?_⟩
  · intro h out h' hm
    have := tcp_Marshal_length h out h' hm
    omega
  · intro p out p' hm
    have := udp_Marshal_length p out p' hm
    omega
  · intro f out f' hf hm
    have := eth_Marshal_length f hf out f' hm
    omega

theorem C24_checksum_accumulator_bound_witness :
    isBytes [0x45, 0x00, 0xff, 0xff, 0x1c] ∧
    [0x45, 0x00, 0xff, 0xff, 0x1c].length ≤ 131074 ∧
    utils.CalculateChecksum [0x45, 0x00, 0xff, 0xff, 0x1c] =
      specChecksum [0x45, 0x00, 0xff, 0xff, 0x1c] ∧
    utils.foldCarry 2 (specWordSum [0x45, 0x00, 0xff, 0xff, 0x1c]) ≤ 65535 :=
  ⟨by decide, by decide,
    (C24_checksum_accumulator_bound [0x45, 0x00, 0xff, 0xff, 0x1c] (by decide) (by decide)).2.2.1,
    (C24_checksum_accumulator_bound [0x45, 0x00, 0xff, 0xff, 0x1c] (by decide)
      (by decide)).2.2.2.2.1⟩

/-! The sequence numbers and the buffers -/

theorem Receive_after (c : tcp.Connection) (data : Bytes) :
    tcp.afterCall c (c.Receive data) =
      { c with ReceiveBuffer := c.ReceiveBuffer ++ data,
               ReceiveSequence := (c.ReceiveSequence + data.length) % 4294967296 } := by
  rcases hcb : c.OnDataReceived with _ | _ | _ <;>
    simp [tcp.Connection.Receive, tcp.afterCall, hcb]

theorem Send_after (c : tcp.Connection) (data : Bytes) (h : c.State = tcp.StateEstablished) :
    tcp.afterCall c (c.Send data) =
      { c with SendBuffer := c.SendBuffer ++ data,
               SendSequence := (c.SendSequence + data.length) % 4294967296 } := by
  rw [Send_ok c data h]; rfl

/-- One data operation keeps the state ESTABLISHED and both sequence numbers in step
with the buffers. -/
theorem Op_apply_keeps (s : Nat) (c : tcp.Connection) (op : tcp.Op)
    (h : c.State = tcp.StateEstablished ∧
      c.SendSequence = (s + c.SendBuffer.length) % 4294967296 ∧
      c.ReceiveSequence = (s + 1 + c.ReceiveBuffer.length) % 4294967296) :
    (tcp.Op.apply c op).State = tcp.StateEstablished ∧
    (tcp.Op.apply c op).SendSequence =
      (s + (tcp.Op.apply c op).SendBuffer.length) % 4294967296 ∧
    (tcp.Op.apply c op).ReceiveSequence =
      (s + 1 + (tcp.Op.apply c op).ReceiveBuffer.length) % 4294967296 := by
  obtain ⟨h1, h2, h3⟩ := h
  cases op with
  | send data =>
    simp only [tcp.Op.apply, Send_after c data h1, List.length_append]
    refine ⟨h1, ?_, h3⟩
    rw [h2]; omega
  | receive data =>
    simp only [tcp.Op.apply, Receive_after c data, List.length_append]
    refine ⟨h1, h2, ?_⟩
    rw [h3]; omega

theorem runOps_keeps (s : Nat) : ∀ (ops : List tcp.Op) (c : tcp.Connection),
    (c.State = tcp.StateEstablished ∧
      c.SendSequence = (s + c.SendBuffer.length) % 4294967296 ∧
      c.ReceiveSequence = (s + 1 + c.ReceiveBuffer.length) % 4294967296) →
    (tcp.runOps c ops).State = tcp.StateEstablished ∧
    (tcp.runOps c ops).SendSequence =
      (s + (tcp.runOps c ops).SendBuffer.length) % 4294967296 ∧
    (tcp.runOps c ops).ReceiveSequence =
      (s + 1 + (tcp.runOps c ops).ReceiveBuffer.length) % 4294967296
  | [], _, h => h
  | op :: ops, c, h => runOps_keeps s ops (tcp.Op.apply c op) (Op_apply_keeps s c op h)

theorem Connect_fresh (lip : Bytes) (lp : Nat) (rip : Bytes) (rp : Nat) (onData onState : Bool)
    (s : Nat) :
    (tcp.Connection.Connect (tcp.freshConnection lip lp rip rp onData onState) s).isOk = true ∧
    tcp.afterCall (tcp.freshConnection lip lp rip rp onData onState)
        (tcp.Connection.Connect (tcp.freshConnection lip lp rip rp onData onState) s) =
      { tcp.freshConnection lip lp rip rp onData onState with
          State := tcp.StateEstablished, SendSequence := s,
          ReceiveSequence := (s + 1) % 4294967296 } := by
  cases onState <;>
    simp [tcp.Connection.Connect, tcp.Connection.handleSynAck, tcp.NewHeader, tcp.NewConnection,
      tcp.freshConnection, tcp.afterCall, Result.isOk]

/-- C25. Sequence/buffer invariant: on a connection made by `NewConnection` (its
callback fields nil, or set to functions that return) a first `Connect` drawing the
32-bit initial sequence number `s` succeeds, and after any sequence of `Send` and
`Receive` calls that follows it the state is ESTABLISHED, `SendSequence` is
`s + len(SendBuffer)` and `ReceiveSequence` is `s + 1 + len(ReceiveBuffer)`, both modulo
`2^32`. -/
theorem C25_sequence_buffer_invariant (lip : Bytes) (lp : Nat) (rip : Bytes) (rp : Nat)
    (onData onState : Bool) (s : Nat) (ops : List tcp.Op) (hs : s < 4294967296) :
    (tcp.Connection.Connect (tcp.freshConnection lip lp rip rp onData onState) s).isOk = true ∧
    (tcp.connectThenRun (tcp.freshConnection lip lp rip rp onData onState) s ops).State =
      tcp.StateEstablished ∧
    (tcp.connectThenRun (tcp.freshConnection lip lp rip rp onData onState) s ops).SendSequence =
      (s + (tcp.connectThenRun (tcp.freshConnection lip lp rip rp onData onState) s
              ops).SendBuffer.length) % 4294967296 ∧
    (tcp.connectThenRun (tcp.freshConnection lip lp rip rp onData onState) s
        ops).ReceiveSequence =
      (s + 1 + (tcp.connectThenRun (tcp.freshConnection lip lp rip rp onData onState) s
                  ops).ReceiveBuffer.length) % 4294967296 := by
  obtain ⟨hok, hc⟩ := Connect_fresh lip lp rip rp onData onState s
  refine ⟨hok, ?_⟩
  unfold tcp.connectThenRun
  rw [hc]
  apply runOps_keeps s ops
  refine ⟨rfl, ?_, ?_⟩
  · show s = (s + ([] : Bytes).length) % 4294967296
    simp only [List.length_nil, Nat.add_zero]
    omega
  · show (s + 1) % 4294967296 = (s + 1 + ([] : Bytes).length) % 4294967296
    simp only [List.length_nil, Nat.add_zero]

theorem C25_sequence_buffer_invariant_witness :
    (4294967295 : Nat) < 4294967296 ∧
    (tcp.connectThenRun (tcp.freshConnection [10, 0, 0, 1] 1234 [10, 0, 0, 2] 80 true false)
        4294967295 [.send [1, 2, 3], .receive [4, 5], .send [6]]).State =
      tcp.StateEstablished ∧
    (tcp.connectThenRun (tcp.freshConnection [10, 0, 0, 1] 1234 [10, 0, 0, 2] 80 true false)
        4294967295 [.send [1, 2, 3], .receive [4, 5], .send [6]]).SendSequence = 3 ∧
    (tcp.connectThenRun (tcp.freshConnection [10, 0, 0, 1] 1234 [10, 0, 0, 2] 80 true false)
        4294967295 [.send [1, 2, 3], .receive [4, 5], .send [6]]).ReceiveSequence = 2 :=
  ⟨by decide,
    (C25_sequence_buffer_invariant [10, 0, 0, 1] 1234 [10, 0, 0, 2] 80 true false 4294967295
      [.send [1, 2, 3], .receive [4, 5], .send [6]] (by decide)).2.1,
    (C25_sequence_buffer_invariant [10, 0, 0, 1] 1234 [10, 0, 0, 2] 80 true false 4294967295
      [.send [1, 2, 3], .receive [4, 5], .send [6]] (by decide)).2.2.1,
    (C25_sequence_buffer_invariant [10, 0, 0, 1] 1234 [10, 0, 0, 2] 80 true false 4294967295
      [.send [1, 2, 3], .receive [4, 5], .send [6]] (by decide)).2.2.2⟩

end Ustack
